import Mathlib

/-!
Verification of the binary metadata engine of the figma-export-images-with-metadata
repository, as a shallow embedding in Lean 4.

Byte buffers (JS `Uint8Array`) are modelled as `List Nat`, with every entry a byte
value `< 256`.  JS `undefined` reads from a typed array, which coerce to `0` in the
numeric (`<<`, `|`) contexts the source uses them in, are modelled by `List.getD _ _ 0`.
JS 32-bit signed results of `(a << 24) | ... | d` are modelled by `toInt32` of the
big-endian byte value.  Loops that advance an index are modelled as fuel-based
recursions; each source loop advances its index by at least one per iteration and
only runs while the index is below the buffer length, so fuel `bytes.length` never
runs out on any execution that the source can perform.
-/

/-- Read a byte at a `Nat` index: out-of-range reads give JS `undefined`, which
the source only uses in numeric contexts where it coerces to `0` (via `ToInt32`
of `NaN`) or in equality tests with byte values, where `0` also gives the same
outcome because genuine bytes are nonzero in every comparison the source makes
against `undefined`-capable positions. -/
def byteAt (l : List Nat) (i : Nat) : Nat := l.getD i 0

/-- Read a byte at a JS (possibly negative) index. -/
def byteAtI (l : List Nat) (i : Int) : Nat :=
  if 0 ≤ i then l.getD i.toNat 0 else 0

/-- JS `Uint8Array.subarray` index resolution: a negative index counts from the
end of the array, and the result is clamped to `[0, length]`. -/
def jsResolveIdx (len : Nat) (x : Int) : Nat :=
  if x < 0 then ((len : Int) + x).toNat else min x.toNat len

/-- JS `Uint8Array.subarray(a, b)` (a non-owning view; as a pure value, the slice). -/
def jsSubarray (l : List Nat) (a b : Int) : List Nat :=
  (l.take (jsResolveIdx l.length b)).drop (jsResolveIdx l.length a)

/-- `subarray` with plain nonnegative indices (the common case in the source). -/
def natSlice (l : List Nat) (a b : Nat) : List Nat := (l.take b).drop a

/-- JS `ToInt32`: interpret a nonnegative 32-bit value as a signed 32-bit integer. -/
def toInt32 (n : Nat) : Int :=
  if n % 4294967296 < 2147483648 then ((n % 4294967296 : Nat) : Int)
  else ((n % 4294967296 : Nat) : Int) - 4294967296

/-- Big-endian 16-bit read `(bytes[i] << 8) | bytes[i+1]` (always nonnegative,
`< 2 ^ 16`, so no sign adjustment is needed). -/
def be16 (l : List Nat) (i : Nat) : Nat := 256 * byteAt l i + byteAt l (i + 1)

/-- The JS value of `(b0 << 24) | (b1 << 16) | (b2 << 8) | b3` for byte values:
the bit patterns are disjoint so the `|`-chain is the big-endian sum, and the JS
result is its signed 32-bit reading. -/
def be32sign (b0 b1 b2 b3 : Nat) : Int :=
  toInt32 (16777216 * b0 + 65536 * b1 + 256 * b2 + b3)

/-- `concatUint8`: concatenation of byte buffers (ui.ts). -/
def concatUint8 (arrays : List (List Nat)) : List Nat := arrays.flatten

/-! ## JPEG segment model (ui.ts `parseJpegSegments`, code.ts `extractAllAppSegments`) -/

/-- A parsed JPEG segment (ui.ts `JpegSegment`); `stop` is the source's `end`
field (a Lean keyword). -/
structure JpegSegment where
  marker : Nat
  length : Nat
  start : Nat
  stop : Nat
  data : List Nat
deriving Repr, DecidableEq

/-- Standalone markers carrying no length: `0x01` and `0xD0`–`0xD7`. -/
def isStandaloneMarker (m : Nat) : Prop := m = 0x01 ∨ (0xd0 ≤ m ∧ m ≤ 0xd7)

instance (m : Nat) : Decidable (isStandaloneMarker m) := by
  unfold isStandaloneMarker; infer_instance

/-- The scan loop of ui.ts `parseJpegSegments` (lines 100–128).  One fuel unit
per loop iteration; the index grows by at least one each iteration so fuel
`bytes.length` is never exhausted before the loop condition fails. -/
def parseJpegSegmentsLoop (bytes : List Nat) : Nat → Nat → List JpegSegment → List JpegSegment
  | 0, _, acc => acc.reverse
  | fuel + 1, i, acc =>
    if i + 4 ≤ bytes.length then
      if byteAt bytes i ≠ 0xff then
        -- fill bytes: scan forward to the next 0xFF
        parseJpegSegmentsLoop bytes fuel (i + 1) acc
      else
        if byteAt bytes (i + 1) = 0xda then acc.reverse       -- SOS: scan data follows
        else if byteAt bytes (i + 1) = 0xd9 then acc.reverse  -- unexpected EOI
        else if isStandaloneMarker (byteAt bytes (i + 1)) then
          parseJpegSegmentsLoop bytes fuel (i + 2)
            (⟨byteAt bytes (i + 1), 0, i, i + 2, natSlice bytes i (i + 2)⟩ :: acc)
        else if i + 2 + 2 > bytes.length then acc.reverse
        else
          parseJpegSegmentsLoop bytes fuel (i + 2 + be16 bytes (i + 2))
            (⟨byteAt bytes (i + 1), be16 bytes (i + 2), i, i + 2 + be16 bytes (i + 2),
              natSlice bytes i (i + 2 + be16 bytes (i + 2))⟩ :: acc)
    else acc.reverse

/-- ui.ts `parseJpegSegments`: `none` models the thrown `'Not a JPEG'`. -/
def parseJpegSegments (bytes : List Nat) : Option (List JpegSegment) :=
  if byteAt bytes 0 = 0xff ∧ byteAt bytes 1 = 0xd8 then
    some (parseJpegSegmentsLoop bytes bytes.length 2 [])
  else none

/-- ui.ts `isApp`. -/
def isApp (marker : Nat) : Prop := 0xe0 ≤ marker ∧ marker ≤ 0xef

instance (m : Nat) : Decidable (isApp m) := by unfold isApp; infer_instance

/-- The `metaMarkers` set of ui.ts `mergeJpegMetadata`. -/
def jpegMetaMarkers : List Nat := [0xe1, 0xe2, 0xed, 0xfe]

/-- The `while` scan of ui.ts lines 173–177 locating the first `FF DA` byte pair
at an index `≥ 2` (a linear scan, blind to segment boundaries). -/
def jpegSosScan (r : List Nat) : Nat → Nat → Nat
  | 0, i => i
  | fuel + 1, i =>
    if i + 1 < r.length then
      if byteAt r i = 0xff ∧ byteAt r (i + 1) = 0xda then i
      else jpegSosScan r fuel (i + 1)
    else i

/-- Index from which ui.ts `mergeJpegMetadata` copies the scan-data tail. -/
def jpegSosIndex (r : List Nat) : Nat := jpegSosScan r r.length 2

/-- The header chunks that ui.ts `mergeJpegMetadata` emits between the SOI and
the scan-data tail (lines 149–169): the leading rendered APP0 if present, the
metadata segments kept from `original`, and the remaining rendered segments
minus their own metadata segments.  The source's skip condition at line 166
(`seg.marker === 0xe0 && idx === 1 && i === 0`) can never hold because the loop
starts at `i = idx`, so only the `metaMarkers` test decides a skip. -/
def mergeJpegMiddle (original rendered : List Nat) : List (List Nat) :=
  let origSegs := parseJpegSegmentsLoop original original.length 2 []
  let keepFromOriginal := origSegs.filter (fun s => s.marker ∈ jpegMetaMarkers)
  let rendSegs := parseJpegSegmentsLoop rendered rendered.length 2 []
  let leadApp0 : List (List Nat) :=
    match rendSegs with
    | s0 :: _ => if s0.marker = 0xe0 then [s0.data] else []
    | [] => []
  let idx : Nat :=
    match rendSegs with
    | s0 :: _ => if s0.marker = 0xe0 then 1 else 0
    | [] => 0
  let restSegs := (rendSegs.drop idx).filter
    (fun s => if isApp s.marker ∨ s.marker = 0xfe
              then ¬ (s.marker ∈ jpegMetaMarkers) else True)
  leadApp0
    ++ keepFromOriginal.map (fun s => s.data)
    ++ restSegs.map (fun s => s.data)

/-- The full `chunks` array of ui.ts `mergeJpegMetadata` (lines 146–179),
assuming both SOI tests passed: the two SOI bytes of `rendered`, the header
chunks, then the scan-data tail of `rendered` from its first `FF DA` pair. -/
def mergeJpegChunkList (original rendered : List Nat) : List (List Nat) :=
  [natSlice rendered 0 2] ++ mergeJpegMiddle original rendered
    ++ [rendered.drop (jpegSosIndex rendered)]

/-- ui.ts `mergeJpegMetadata` (lines 136–182); `none` models a thrown
format-mismatch error.  `parseJpegSegments original` throws exactly when
`original` fails the two-byte SOI test, so that call appears here as its SOI
test guarding its loop (inside `mergeJpegChunkList`); the explicit rendered SOI
test of line 143 is the second guard. -/
def mergeJpegMetadata (original rendered : List Nat) : Option (List Nat) :=
  if byteAt original 0 = 0xff ∧ byteAt original 1 = 0xd8 then
    if byteAt rendered 0 = 0xff ∧ byteAt rendered 1 = 0xd8 then
      some (concatUint8 (mergeJpegChunkList original rendered))
    else none
  else none

/-- The scan loop of code.ts `extractAllAppSegments` (lines 428–443); unlike
`parseJpegSegments` it rejects a segment whose declared end exceeds the buffer. -/
def extractAllAppSegmentsLoop (bytes : List Nat) (marker : Nat) :
    Nat → Nat → List (List Nat) → List (List Nat)
  | 0, _, acc => acc.reverse
  | fuel + 1, i, acc =>
    if i + 4 ≤ bytes.length then
      if byteAt bytes i ≠ 0xff then extractAllAppSegmentsLoop bytes marker fuel (i + 1) acc
      else
        if byteAt bytes (i + 1) = 0xda ∨ byteAt bytes (i + 1) = 0xd9 then acc.reverse
        else if isStandaloneMarker (byteAt bytes (i + 1)) then
          extractAllAppSegmentsLoop bytes marker fuel (i + 2) acc
        else if i + 2 + 2 > bytes.length then acc.reverse
        else if i + 2 + be16 bytes (i + 2) > bytes.length then acc.reverse -- invalid segment
        else
          extractAllAppSegmentsLoop bytes marker fuel (i + 2 + be16 bytes (i + 2))
            (if byteAt bytes (i + 1) = marker
             then natSlice bytes (i + 2 + 2) (i + 2 + be16 bytes (i + 2)) :: acc else acc)
    else acc.reverse

/-- code.ts `extractAllAppSegments`. -/
def extractAllAppSegments (bytes : List Nat) (marker : Nat) : List (List Nat) :=
  if bytes.length < 2 ∨ byteAt bytes 0 ≠ 0xff ∨ byteAt bytes 1 ≠ 0xd8 then []
  else extractAllAppSegmentsLoop bytes marker bytes.length 2 []

/-! ## PNG chunk model (ui.ts `parsePngChunks`, `calculateCrc32`, `createPngChunk`) -/

/-- A parsed PNG chunk (ui.ts `PngChunk`).  `type` holds the character codes of
the source's type string, `length` and `crc` the JS signed-32-bit values the
`(a << 24) | ...` chains produce, and `stop` is the source's `end` field. -/
structure PngChunk where
  length : Int
  type : List Nat
  data : List Nat
  crc : Int
  start : Int
  stop : Int
deriving Repr, DecidableEq

/-- The JS value of `(bytes[i] << 24) | (bytes[i+1] << 16) | (bytes[i+2] << 8) | bytes[i+3]`:
for byte values the bit patterns are disjoint, so the `|`-chain equals the
big-endian sum read as a signed 32-bit integer. -/
def jsInt32BE (l : List Nat) (i : Int) : Int :=
  toInt32 (16777216 * byteAtI l i + 65536 * byteAtI l (i + 1)
    + 256 * byteAtI l (i + 2) + byteAtI l (i + 3))

def iendCodes : List Nat := [73, 69, 78, 68]     -- 'IEND'
def ihdrCodes : List Nat := [73, 72, 68, 82]     -- 'IHDR'
def idatCodes : List Nat := [73, 68, 65, 84]     -- 'IDAT'
def eXIfCodes : List Nat := [101, 88, 73, 102]   -- 'eXIf'
def itxtCodes : List Nat := [105, 84, 88, 116]   -- 'iTXt'

/-- The scan loop of ui.ts `parsePngChunks` (lines 198–217).  The index is an
`Int` because a declared chunk length with its top bit set is negative in JS and
then `i = crcEnd` can move the index backwards or below zero; the fuel bound
only truncates such adversarial executions, which no theorem below relies on. -/
def parsePngChunksLoop (bytes : List Nat) : Nat → Int → List PngChunk → List PngChunk
  | 0, _, acc => acc.reverse
  | fuel + 1, i, acc =>
    if i + 12 ≤ (bytes.length : Int) then
      if i + 8 + jsInt32BE bytes i + 4 > (bytes.length : Int) then acc.reverse
      else
        if jsSubarray bytes (i + 4) (i + 8) = iendCodes then
          (⟨jsInt32BE bytes i, jsSubarray bytes (i + 4) (i + 8),
            jsSubarray bytes (i + 8) (i + 8 + jsInt32BE bytes i),
            jsInt32BE bytes (i + 8 + jsInt32BE bytes i), i,
            i + 8 + jsInt32BE bytes i + 4⟩ :: acc).reverse
        else
          parsePngChunksLoop bytes fuel (i + 8 + jsInt32BE bytes i + 4)
            (⟨jsInt32BE bytes i, jsSubarray bytes (i + 4) (i + 8),
              jsSubarray bytes (i + 8) (i + 8 + jsInt32BE bytes i),
              jsInt32BE bytes (i + 8 + jsInt32BE bytes i), i,
              i + 8 + jsInt32BE bytes i + 4⟩ :: acc)
    else acc.reverse

/-- The PNG signature `89 50 4E 47 0D 0A 1A 0A`. -/
def pngSignature : List Nat := [0x89, 0x50, 0x4e, 0x47, 0x0d, 0x0a, 0x1a, 0x0a]

/-- The signature test of ui.ts `parsePngChunks` lines 189–191 (negated:
`pngSigOk` holds when the function does not throw). -/
def pngSigOk (bytes : List Nat) : Prop :=
  ¬ (bytes.length < 8 ∨ byteAt bytes 0 ≠ 0x89 ∨ byteAt bytes 1 ≠ 0x50
    ∨ byteAt bytes 2 ≠ 0x4e ∨ byteAt bytes 3 ≠ 0x47 ∨ byteAt bytes 4 ≠ 0x0d
    ∨ byteAt bytes 5 ≠ 0x0a ∨ byteAt bytes 6 ≠ 0x1a ∨ byteAt bytes 7 ≠ 0x0a)

instance (bytes : List Nat) : Decidable (pngSigOk bytes) := by
  unfold pngSigOk; infer_instance

/-- ui.ts `parsePngChunks`; `none` models the thrown `'Not a PNG'`. -/
def parsePngChunks (bytes : List Nat) : Option (List PngChunk) :=
  if pngSigOk bytes then some (parsePngChunksLoop bytes bytes.length 8 []) else none

/-- One bit step of ui.ts `calculateCrc32`'s table construction (line 228):
`crc = (crc & 1) ? (0xEDB88320 ^ (crc >>> 1)) : (crc >>> 1)`. -/
def crcStep (c : Nat) : Nat :=
  if c % 2 = 1 then 0xEDB88320 ^^^ (c / 2) else c / 2

/-- Entry `i` of the source's `crcTable` (lines 224–231): eight bit steps on `i`.
The source precomputes the 256 entries; as a pure value the table is this
function restricted to `i < 256`, and every lookup the source makes is at an
index `< 256`. -/
def crcTableEntry (i : Nat) : Nat := crcStep^[8] i

/-- One byte of the main loop of `calculateCrc32` (lines 234–239):
`crc = crcTable[(crc ^ b) & 0xFF] ^ (crc >>> 8)`.  The running value is always
`< 2 ^ 32`, so the JS unsigned shift is plain division. -/
def crcUpdate (crc b : Nat) : Nat :=
  crcTableEntry ((crc ^^^ b) &&& 0xff) ^^^ (crc / 256)

/-- ui.ts `calculateCrc32` over the type bytes followed by the data bytes; the
trailing `>>> 0` is `% 2 ^ 32` (an identity here, since the value stays below
`2 ^ 32`). -/
def calculateCrc32 (typeBytes data : List Nat) : Nat :=
  (data.foldl crcUpdate (typeBytes.foldl crcUpdate 0xffffffff) ^^^ 0xffffffff)
    % 4294967296

/-- The spec's own words for the chunk CRC (§4.3: reflected polynomial
`0xEDB88320`, initial and final XOR `0xFFFFFFFF`): the standard bitwise CRC-32,
one byte XORed in at a time followed by eight polynomial bit steps.  Stated
separately from `calculateCrc32` so the table-driven source can be compared
against it (see the C4 theorem). -/
def crc32Spec (bytes : List Nat) : Nat :=
  bytes.foldl (fun c b => crcStep^[8] (c ^^^ b)) 0xffffffff ^^^ 0xffffffff

/-- The 4-byte big-endian encoding `[(n >>> 24) & 0xFF, (n >>> 16) & 0xFF,
(n >>> 8) & 0xFF, n & 0xFF]` of a value `< 2 ^ 32` (used by `createPngChunk`
for both the length and the CRC fields). -/
def be4Bytes (n : Nat) : List Nat :=
  [n / 16777216 % 256, n / 65536 % 256, n / 256 % 256, n % 256]

/-- ui.ts `createPngChunk` (lines 244–267).  `typeCodes` are the char codes of
the source's `type` string; `type.charCodeAt(i)` for `i` beyond the string is
`NaN`, which a `Uint8Array` stores as `0`, and in-range codes are stored mod 256. -/
def createPngChunk (typeCodes data : List Nat) : List Nat :=
  be4Bytes data.length
    ++ (List.range 4).map (fun k => typeCodes.getD k 0 % 256)
    ++ data
    ++ be4Bytes (calculateCrc32 ((List.range 4).map (fun k => typeCodes.getD k 0 % 256)) data)

/-! ## JPEG-to-PNG metadata extraction (ui.ts lines 270–381) -/

def exifHeaderCodes : List Nat := [69, 120, 105, 102]  -- 'Exif'

/-- The scan loop of ui.ts `extractExifForPng` (lines 275–301), with the loop
index kept at the `0xFF` of the current marker (the source advances it past the
marker before reading the length; offsets here are adjusted accordingly). -/
def extractExifForPngLoop (b : List Nat) : Nat → Nat → Option (List Nat)
  | 0, _ => none
  | fuel + 1, i =>
    if i + 4 ≤ b.length then
      if byteAt b i ≠ 0xff then extractExifForPngLoop b fuel (i + 1)
      else if byteAt b (i + 1) = 0xda ∨ byteAt b (i + 1) = 0xd9 then none
      else if isStandaloneMarker (byteAt b (i + 1)) then extractExifForPngLoop b fuel (i + 2)
      else if i + 2 + 2 > b.length then none
      else if byteAt b (i + 1) = 0xe1
              ∧ i + 2 + 8 ≤ b.length
              ∧ natSlice b (i + 2 + 2) (i + 2 + 6) = exifHeaderCodes
              ∧ byteAt b (i + 2 + 6) = 0 ∧ byteAt b (i + 2 + 7) = 0
              ∧ natSlice b (i + 2 + 8) (i + 2 + be16 b (i + 2)) ≠ []
      then some (natSlice b (i + 2 + 8) (i + 2 + be16 b (i + 2)))
      else extractExifForPngLoop b fuel (i + 2 + be16 b (i + 2))
    else none

/-- ui.ts `extractExifForPng`. -/
def extractExifForPng (b : List Nat) : Option (List Nat) :=
  if b.length < 2 ∨ byteAt b 0 ≠ 0xff ∨ byteAt b 1 ≠ 0xd8 then none
  else extractExifForPngLoop b b.length 2

def iccHeaderCodes : List Nat := [73, 67, 67, 95, 80, 82, 79, 70, 73, 76, 69]  -- 'ICC_PROFILE'

/-- The scan loop of ui.ts `extractIccForPng` (lines 310–329); the
`startsWith('ICC_PROFILE')` test on the 12 decoded characters is the code-list
test below on the (possibly clamped) 12-byte slice. -/
def extractIccForPngLoop (b : List Nat) : Nat → Nat → Option (List Nat)
  | 0, _ => none
  | fuel + 1, i =>
    if i + 4 ≤ b.length then
      if byteAt b i ≠ 0xff then extractIccForPngLoop b fuel (i + 1)
      else if byteAt b (i + 1) = 0xda ∨ byteAt b (i + 1) = 0xd9 then none
      else if isStandaloneMarker (byteAt b (i + 1)) then extractIccForPngLoop b fuel (i + 2)
      else if i + 2 + 2 > b.length then none
      else if byteAt b (i + 1) = 0xe2
              ∧ iccHeaderCodes.isPrefixOf (natSlice b (i + 2 + 2) (i + 2 + 14))
      then some (natSlice b (i + 2 + 14) (i + 2 + be16 b (i + 2)))
      else extractIccForPngLoop b fuel (i + 2 + be16 b (i + 2))
    else none

/-- ui.ts `extractIccForPng`. -/
def extractIccForPng (b : List Nat) : Option (List Nat) :=
  if b.length < 2 ∨ byteAt b 0 ≠ 0xff ∨ byteAt b 1 ≠ 0xd8 then none
  else extractIccForPngLoop b b.length 2

/-- JS `String.prototype.includes` on character-code lists. -/
def listContains (hay needle : List Nat) : Bool :=
  (List.range (hay.length + 1)).any (fun k => needle.isPrefixOf (hay.drop k))

def xapNsCodes : List Nat :=     -- 'http://ns.adobe.com/xap/1.0/'
  [104, 116, 116, 112, 58, 47, 47, 110, 115, 46, 97, 100, 111, 98, 101, 46,
   99, 111, 109, 47, 120, 97, 112, 47, 49, 46, 48, 47]
def xpacketCodes : List Nat := [60, 63, 120, 112, 97, 99, 107, 101, 116]  -- '<?xpacket'
def xmpmetaCodes : List Nat := [120, 58, 120, 109, 112, 109, 101, 116, 97]  -- 'x:xmpmeta'

/-- The XMP header test shared by ui.ts `extractXmpForPng` (lines 352–355) and
code.ts `extractAppSegment` / `parseImageMetadata`. -/
def xmpHeaderMatch (seg : List Nat) : Prop :=
  listContains (seg.take (min 100 seg.length)) xapNsCodes = true
  ∨ listContains (seg.take (min 100 seg.length)) xpacketCodes = true
  ∨ listContains (seg.take (min 100 seg.length)) xmpmetaCodes = true

instance (seg : List Nat) : Decidable (xmpHeaderMatch seg) := by
  unfold xmpHeaderMatch; infer_instance

/-- The `xmlStart` scan shared by ui.ts `extractXmpForPng` (lines 358–365) and
code.ts `parseXmpBasic` (lines 509–516): `xmlStart` is initialised to `0` and
set to the index of the first `3C 3F 78 6D` (`<?xm`) found at an index
`< length - 4`; "no match" and "match at index 0" both yield `0`. -/
def xmpFindStart (seg : List Nat) : Nat → Nat → Nat
  | 0, _ => 0
  | fuel + 1, j =>
    if j + 5 ≤ seg.length then
      if byteAt seg j = 0x3c ∧ byteAt seg (j + 1) = 0x3f
         ∧ byteAt seg (j + 2) = 0x78 ∧ byteAt seg (j + 3) = 0x6d then j
      else xmpFindStart seg fuel (j + 1)
    else 0

/-- The `xmlEnd` scan shared by ui.ts lines 367–373 and code.ts lines 519–525:
the first NUL byte at an index `≥ start`, or the segment length. -/
def xmpFindEnd (seg : List Nat) : Nat → Nat → Nat
  | 0, _ => seg.length
  | fuel + 1, j =>
    if j < seg.length then
      if byteAt seg j = 0 then j else xmpFindEnd seg fuel (j + 1)
    else seg.length

/-- The slice `segment.subarray(xmlStart, xmlEnd)` that ui.ts `extractXmpForPng`
returns once the header test passed. -/
def xmpSlice (seg : List Nat) : List Nat :=
  natSlice seg (xmpFindStart seg seg.length 0)
    (xmpFindEnd seg seg.length (xmpFindStart seg seg.length 0))

/-- The scan loop of ui.ts `extractXmpForPng` (lines 340–379). -/
def extractXmpForPngLoop (b : List Nat) : Nat → Nat → Option (List Nat)
  | 0, _ => none
  | fuel + 1, i =>
    if i + 4 ≤ b.length then
      if byteAt b i ≠ 0xff then extractXmpForPngLoop b fuel (i + 1)
      else if byteAt b (i + 1) = 0xda ∨ byteAt b (i + 1) = 0xd9 then none
      else if isStandaloneMarker (byteAt b (i + 1)) then extractXmpForPngLoop b fuel (i + 2)
      else if i + 2 + 2 > b.length then none
      else if byteAt b (i + 1) = 0xe1
              ∧ 29 ≤ (natSlice b (i + 2 + 2) (i + 2 + be16 b (i + 2))).length
              ∧ xmpHeaderMatch (natSlice b (i + 2 + 2) (i + 2 + be16 b (i + 2)))
      then some (xmpSlice (natSlice b (i + 2 + 2) (i + 2 + be16 b (i + 2))))
      else extractXmpForPngLoop b fuel (i + 2 + be16 b (i + 2))
    else none

/-- ui.ts `extractXmpForPng`. -/
def extractXmpForPng (b : List Nat) : Option (List Nat) :=
  if b.length < 2 ∨ byteAt b 0 ≠ 0xff ∨ byteAt b 1 ≠ 0xd8 then none
  else extractXmpForPngLoop b b.length 2

/-! ## PNG merge engine (ui.ts `mergePngMetadata`, lines 383–495) -/

def xmpKeywordCodes : List Nat :=  -- 'XML:com.adobe.xmp'
  [88, 77, 76, 58, 99, 111, 109, 46, 97, 100, 111, 98, 101, 46, 120, 109, 112]

/-- JS `TypedArray.prototype.set(src, offset)`: `none` models the RangeError
thrown when the source does not fit at the offset. -/
def jsTypedArraySet (target src : List Nat) (offset : Nat) : Option (List Nat) :=
  if offset + src.length ≤ target.length then
    some (target.take offset ++ src ++ target.drop (offset + src.length))
  else none

/-- JS single-index typed-array store `a[i] = v` (an out-of-range store on a
typed array is silently ignored). -/
def jsWrite (target : List Nat) (i v : Nat) : List Nat :=
  if i < target.length then target.take i ++ [v] ++ target.drop (i + 1) else target

/-- The `itxtData` buffer assembly of ui.ts lines 462–473.  The allocation
(line 464) reserves `keyword.length + 1 + 1 + 1 + 1 + xmpData.length` bytes, but
lines 468–472 write five separator zero bytes, advancing `offset` to
`keyword.length + 5`; the final `itxtData.set(xmpData, offset)` therefore throws
a RangeError (`none`) whenever `xmpData` is nonempty, and the surrounding
`catch` (line 477) then drops the iTXt chunk. -/
def itxtDataForXmp (xmpData : List Nat) : Option (List Nat) := do
  let alloc := List.replicate (xmpKeywordCodes.length + 1 + 1 + 1 + 1 + xmpData.length) 0
  let a1 ← jsTypedArraySet alloc xmpKeywordCodes 0
  let a2 := jsWrite a1 xmpKeywordCodes.length 0        -- keyword NUL terminator
  let a3 := jsWrite a2 (xmpKeywordCodes.length + 1) 0  -- compression flag
  let a4 := jsWrite a3 (xmpKeywordCodes.length + 2) 0  -- compression method
  let a5 := jsWrite a4 (xmpKeywordCodes.length + 3) 0  -- language tag NUL
  let a6 := jsWrite a5 (xmpKeywordCodes.length + 4) 0  -- translated keyword NUL
  jsTypedArraySet a6 xmpData (xmpKeywordCodes.length + 5)

/-- The body of ui.ts `mergePngMetadata` after `parsePngChunks(rendered)`
succeeded with `chunks` (lines 388–490).  Total: every error the body can raise
is caught inside it (the iTXt RangeError, see `itxtDataForXmp`). -/
def mergePngAssemble (original rendered : List Nat) (chunks : List PngChunk) : List Nat :=
  let exifData := extractExifForPng original
  let iccData := extractIccForPng original
  let xmpData := extractXmpForPng original
  if exifData = none ∧ xmpData = none ∧ iccData = none then rendered
  else
    match chunks.findIdx? (fun c => c.type = ihdrCodes) with
    | none => rendered   -- no IHDR chunk found
    | some ihdrIdx =>
      let insertIndex :=
        match (chunks.drop (ihdrIdx + 1)).findIdx? (fun c => c.type = idatCodes) with
        | some j => ihdrIdx + 1 + j
        | none => ihdrIdx + 1
      let exifChunks : List (List Nat) :=
        match exifData with
        | some e => if 0 < e.length then [createPngChunk eXIfCodes e] else []
        | none => []
      -- ICC data is detected but deliberately not injected (iCCP needs deflate)
      let xmpChunks : List (List Nat) :=
        match xmpData with
        | some x =>
          if 0 < x.length then
            match itxtDataForXmp x with
            | some itxt => [createPngChunk itxtCodes itxt]
            | none => []   -- RangeError caught at line 477: iTXt chunk dropped
          else []
        | none => []
      concatUint8 ([pngSignature]
        ++ (chunks.take insertIndex).map (fun c => jsSubarray rendered c.start c.stop)
        ++ exifChunks ++ xmpChunks
        ++ (chunks.drop insertIndex).map (fun c => jsSubarray rendered c.start c.stop))

/-- The `try` block of ui.ts `mergePngMetadata`: `none` models an exception
reaching the outer `catch` of line 491.  Only `parsePngChunks` can throw there
(exactly when the signature test fails), so that call appears as its test
guarding its loop. -/
def mergePngMetadataInner (original rendered : List Nat) : Option (List Nat) :=
  if pngSigOk rendered then
    some (mergePngAssemble original rendered (parsePngChunksLoop rendered rendered.length 8 []))
  else none

/-- ui.ts `mergePngMetadata` (lines 383–495): the caught-exception path returns
`rendered` unchanged. -/
def mergePngMetadata (original rendered : List Nat) : List Nat :=
  (mergePngMetadataInner original rendered).getD rendered

/-! ## EXIF/TIFF decoder (exif-parser.ts) -/

/-- A JS value produced by exif-parser.ts `readValue` (typed `any` in the
source): a string, a number (integer or the rational `num / den` — the source's
float division is modelled exactly as a rational; no claim exercises JS float
rounding or formatting), an array of numbers, or `null`. -/
inductive ExifValue where
  | vNull
  | vStr (s : String)
  | vInt (n : Int)
  | vRat (q : Rat)
  | vIntList (l : List Int)
deriving Repr, DecidableEq

/-- JS truthiness of an `ExifValue`-or-`undefined` field (`!data.make` etc.):
`undefined`, `null`, the empty string, and the number `0` are falsy; arrays are
always truthy. -/
def exifFalsy : Option ExifValue → Bool
  | none => true
  | some .vNull => true
  | some (.vStr s) => s = ""
  | some (.vInt n) => n = 0
  | some (.vRat q) => q = 0
  | some (.vIntList _) => false

/-- JS truthiness test `!field` for a string-or-`undefined` field. -/
def strFalsy : Option String → Bool
  | none => true
  | some s => s = ""

/-- `typeof value === 'number'`, with the numeric value as a rational. -/
def ExifValue.asNumber : ExifValue → Option Rat
  | .vInt n => some (n : Rat)
  | .vRat q => some q
  | _ => none

/-- `String.fromCharCode` over a code list.  Codes in the surrogate range
(which no claim exercises) fall back to `Char.ofNat`'s default. -/
def codesToString (cs : List Nat) : String := String.mk (cs.map (fun c => Char.ofNat c))

/-- JS number-to-string for the numbers the EXIF formatter interpolates.
Integral values print like JS; non-integral values (JS float formatting) are
printed as rationals — no claim exercises them. -/
def jsNumToString (q : Rat) : String :=
  if q.den = 1 then toString q.num else toString q

/-- JS `Math.round` (round half towards positive infinity). -/
def jsRound (q : Rat) : Int := ⌊q + 1/2⌋

/-- The decoded EXIF field map (exif-parser.ts `ExifData`).  `hasAlpha` and
`redEye` exist on the source interface but `parseExif` never sets them. -/
structure ExifData where
  make : Option ExifValue := none
  model : Option ExifValue := none
  dateTime : Option ExifValue := none
  dateTimeOriginal : Option ExifValue := none
  colorSpace : Option String := none
  focalLength : Option String := none
  fNumber : Option String := none
  exposureTime : Option String := none
  iso : Option ExifValue := none
  meteringMode : Option String := none
  exposureProgram : Option String := none
deriving Repr, DecidableEq

/-- exif-parser.ts `readUint16`. -/
def readUint16 (l : List Nat) (o : Int) (le : Bool) : Nat :=
  if le then byteAtI l o + 256 * byteAtI l (o + 1)
  else 256 * byteAtI l o + byteAtI l (o + 1)

/-- exif-parser.ts `readUint32`: the JS `|`-chain yields a signed 32-bit value
(negative when the top bit is set), despite the name. -/
def readUint32 (l : List Nat) (o : Int) (le : Bool) : Int :=
  if le then
    toInt32 (byteAtI l o + 256 * byteAtI l (o + 1)
      + 65536 * byteAtI l (o + 2) + 16777216 * byteAtI l (o + 3))
  else jsInt32BE l o

/-- exif-parser.ts `readInt32`: `readUint32` already returns a signed value, so
the `> 0x7FFFFFFF` adjustment can never fire; it is kept verbatim. -/
def readInt32 (l : List Nat) (o : Int) (le : Bool) : Int :=
  if readUint32 l o le > 0x7fffffff then readUint32 l o le - 4294967296
  else readUint32 l o le

/-- exif-parser.ts `getTypeSize`. -/
def getTypeSize (ty : Nat) : Nat :=
  if ty = 1 then 1 else if ty = 2 then 1 else if ty = 3 then 2
  else if ty = 4 then 4 else if ty = 5 then 8 else if ty = 7 then 1
  else if ty = 9 then 4 else if ty = 10 then 8 else 1

/-- exif-parser.ts `readValue` (lines 268–317).  The unused `baseOffset`
parameter of the source is dropped.  For RATIONAL/SRATIONAL the `count !== 1`
branch duplicates the single-value formula, so one expression covers both. -/
def readValue (l : List Nat) (offset : Int) (ty : Nat) (count : Int) (le : Bool) : ExifValue :=
  if ty = 1 then
    if count = 1 then .vInt (byteAtI l offset)
    else .vIntList ((jsSubarray l offset (offset + count)).map Int.ofNat)
  else if ty = 2 then
    .vStr (codesToString ((List.range (count - 1).toNat).filterMap
      (fun k => if offset + k < (l.length : Int) then some (byteAtI l (offset + k)) else none)))
  else if ty = 3 then
    if count = 1 then .vInt (readUint16 l offset le)
    else .vIntList ((List.range count.toNat).map (fun k => (readUint16 l (offset + 2 * k) le : Int)))
  else if ty = 4 then
    if count = 1 then .vInt (readUint32 l offset le)
    else .vIntList ((List.range count.toNat).map (fun k => readUint32 l (offset + 4 * k) le))
  else if ty = 5 then
    .vRat (if readUint32 l (offset + 4) le ≠ 0
           then (readUint32 l offset le : Rat) / (readUint32 l (offset + 4) le : Rat) else 0)
  else if ty = 10 then
    .vRat (if readInt32 l (offset + 4) le ≠ 0
           then (readInt32 l offset le : Rat) / (readInt32 l (offset + 4) le : Rat) else 0)
  else .vNull

/-- The `ColorSpace` value mapping of exif-parser.ts line 136. -/
def colorSpaceName (q : Rat) : String :=
  if q = 1 then "sRGB" else if q = 65535 then "Uncalibrated" else "RGB"

/-- The tag-to-field switch of the main IFD loop (exif-parser.ts lines 121–139). -/
def applyMainTag (d : ExifData) (tag : Nat) (value : ExifValue) : ExifData :=
  if tag = 0x010f then (if exifFalsy d.make then { d with make := some value } else d)
  else if tag = 0x0110 then (if exifFalsy d.model then { d with model := some value } else d)
  else if tag = 0x0132 then (if exifFalsy d.dateTime then { d with dateTime := some value } else d)
  else if tag = 0x9003 then
    (if exifFalsy d.dateTimeOriginal then { d with dateTimeOriginal := some value } else d)
  else if tag = 0xa001 then
    match value.asNumber with
    | some q =>
      if strFalsy d.colorSpace then { d with colorSpace := some (colorSpaceName q) }
      else d
    | none => d
  else d

/-- exif-parser.ts `METERING_MODES` (a JS object lookup keyed by the number). -/
def meteringModeName (n : Int) : Option String :=
  if n = 0 then some "Unknown" else if n = 1 then some "Average"
  else if n = 2 then some "Center-weighted average" else if n = 3 then some "Spot"
  else if n = 4 then some "Multi-spot" else if n = 5 then some "Multi-segment"
  else if n = 6 then some "Partial" else if n = 255 then some "Other" else none

/-- exif-parser.ts `EXPOSURE_PROGRAMS`. -/
def exposureProgramName (n : Int) : Option String :=
  if n = 0 then some "Not defined" else if n = 1 then some "Manual"
  else if n = 2 then some "Normal program" else if n = 3 then some "Aperture priority"
  else if n = 4 then some "Shutter priority" else if n = 5 then some "Creative program"
  else if n = 6 then some "Action program" else if n = 7 then some "Portrait mode"
  else if n = 8 then some "Landscape mode" else none

/-- JS object lookup `TABLE[value]` for a numeric key: integral numbers hit
their entry, non-integral ones miss. -/
def numKeyLookup (table : Int → Option String) (q : Rat) : Option String :=
  if q.den = 1 then table q.num else none

/-- ExposureTime formatting of exif-parser.ts lines 196–200. -/
def exposureTimeString (q : Rat) : String :=
  if q < 1 then "1/" ++ toString (jsRound (1 / q)) else jsNumToString q

/-- The tag-to-field switch of the EXIF sub-IFD loop (exif-parser.ts
lines 183–218). -/
def applySubTag (d : ExifData) (tag : Nat) (value : ExifValue) : ExifData :=
  match value.asNumber with
  | none => d
  | some q =>
    if tag = 0x920a then
      (if strFalsy d.focalLength
       then { d with focalLength := some (jsNumToString q ++ " mm") } else d)
    else if tag = 0x829d then
      (if strFalsy d.fNumber then { d with fNumber := some ("f/" ++ jsNumToString q) } else d)
    else if tag = 0x829a then
      (if strFalsy d.exposureTime
       then { d with exposureTime := some (exposureTimeString q) } else d)
    else if tag = 0x8827 then
      (if d.iso = none then { d with iso := some value } else d)
    else if tag = 0x9207 then
      (if strFalsy d.meteringMode then
        { d with meteringMode := some ((numKeyLookup meteringModeName q).getD ("Mode " ++ jsNumToString q)) }
       else d)
    else if tag = 0x8822 then
      (if strFalsy d.exposureProgram then
        { d with exposureProgram := some ((numKeyLookup exposureProgramName q).getD ("Program " ++ jsNumToString q)) }
       else d)
    else d

/-- The value of one IFD entry at `off` (exif-parser.ts lines 103–113): inline
when `count * typeSize ≤ 4`, else at `6 + valueOffset`. -/
def entryValue (seg : List Nat) (le : Bool) (off : Int) : ExifValue :=
  if readUint32 seg (off + 4) le * (getTypeSize (readUint16 seg (off + 2) le) : Int) ≤ 4 then
    readValue seg (off + 8) (readUint16 seg (off + 2) le) (readUint32 seg (off + 4) le) le
  else
    readValue seg (6 + readUint32 seg (off + 8) le) (readUint16 seg (off + 2) le)
      (readUint32 seg (off + 4) le) le

/-- The entry loop of exif-parser.ts `parseIFD` (lines 96–142), returning the
field map and the last captured EXIF sub-IFD pointer (tag `0x8769`). -/
def parseIFDEntriesLoop (seg : List Nat) (le : Bool) :
    Nat → Int → ExifData × Option Int → ExifData × Option Int
  | 0, _, st => st
  | n + 1, off, st =>
    if off + 12 ≤ (seg.length : Int) then
      parseIFDEntriesLoop seg le n (off + 12)
        (applyMainTag st.1 (readUint16 seg off le) (entryValue seg le off),
         if readUint16 seg off le = 0x8769
         then some (6 + readUint32 seg (off + 8) le) else st.2)
    else st

/-- The entry loop of exif-parser.ts `parseExifSubIFD` (lines 165–221). -/
def parseSubIFDEntriesLoop (seg : List Nat) (le : Bool) :
    Nat → Int → ExifData → ExifData
  | 0, _, d => d
  | n + 1, off, d =>
    if off + 12 ≤ (seg.length : Int) then
      parseSubIFDEntriesLoop seg le n (off + 12)
        (applySubTag d (readUint16 seg off le) (entryValue seg le off))
    else d

/-- exif-parser.ts `parseExifSubIFD` (lines 159–222). -/
def parseExifSubIFD (seg : List Nat) (le : Bool) (ifdOffset : Int) (d : ExifData) : ExifData :=
  if ifdOffset + 2 > (seg.length : Int) then d
  else parseSubIFDEntriesLoop seg le (readUint16 seg ifdOffset le) (ifdOffset + 2) d

/-- exif-parser.ts `parseIFD` (lines 86–156): the main IFD entries, then the
EXIF sub-IFD if a tag `0x8769` pointer was seen (the next-IFD pointer is read
but never followed). -/
def parseIFD (seg : List Nat) (le : Bool) (ifdOffset : Int) : ExifData :=
  if ifdOffset + 2 > (seg.length : Int) then {}
  else
    match parseIFDEntriesLoop seg le (readUint16 seg ifdOffset le) (ifdOffset + 2) ({}, none) with
    | (d, some so) => parseExifSubIFD seg le so d
    | (d, none) => d

/-- exif-parser.ts `parseExif` (lines 60–236). -/
def parseExif (seg : List Nat) : ExifData :=
  if seg.length < 6 then {}
  else if ¬ exifHeaderCodes.isPrefixOf (seg.take 6) then {}
  else if 6 + 2 > seg.length then {}
  else if readUint16 seg 8 (byteAt seg 6 = 73 ∧ byteAt seg 7 = 73 : Bool) ≠ 42
          ∨ 8 + 2 > seg.length then {}
  else if 10 + 4 > seg.length then {}
  else
    parseIFD seg (byteAt seg 6 = 73 ∧ byteAt seg 7 = 73 : Bool)
      (6 + readUint32 seg 10 (byteAt seg 6 = 73 ∧ byteAt seg 7 = 73 : Bool))

/-! ## IPTC/IIM decoder (iptc-parser.ts) -/

/-- The decoded IPTC field map (iptc-parser.ts `IptcData`). -/
structure IptcData where
  headline : Option String := none
  credit : Option String := none
  caption : Option String := none
  keywords : Option (List String) := none
  city : Option String := none
  stateProvince : Option String := none
  country : Option String := none
  instructions : Option String := none
  byline : Option String := none
  contact : Option String := none
  subLocation : Option String := none
  dateCreated : Option String := none
  timeCreated : Option String := none
deriving Repr, DecidableEq

/-- The manual UTF-8 fallback decoder of iptc-parser.ts `decodeUtf8`
(lines 31–66), producing the code units the source builds with
`String.fromCharCode`.  The `TextDecoder` branch and this fallback agree on the
ASCII data every claim exercises. -/
def utf8TwoByteCode (b b2 : Nat) : Nat :=
  ((b &&& 0x1f) <<< 6) ||| (b2 &&& 0x3f)

def utf8ThreeByteCode (b b2 b3 : Nat) : Nat :=
  (((b &&& 0x0f) <<< 12) ||| ((b2 &&& 0x3f) <<< 6)) ||| (b3 &&& 0x3f)

def decodeUtf8Codes : List Nat → List Nat
  | [] => []
  | [b] => if b < 0x80 then [b] else []     -- a lone lead byte is dropped
  | [b, b2] =>
    if b < 0x80 then b :: decodeUtf8Codes [b2]
    else if b &&& 0xe0 = 0xc0 then [utf8TwoByteCode b b2]
    else decodeUtf8Codes [b2]               -- truncated 3-byte / invalid lead: skip it
  | b :: b2 :: b3 :: rest =>
    if b < 0x80 then b :: decodeUtf8Codes (b2 :: b3 :: rest)
    else if b &&& 0xe0 = 0xc0 then
      utf8TwoByteCode b b2 :: decodeUtf8Codes (b3 :: rest)
    else if b &&& 0xf0 = 0xe0 then
      utf8ThreeByteCode b b2 b3 :: decodeUtf8Codes rest
    else decodeUtf8Codes (b2 :: b3 :: rest) -- invalid or 4-byte lead: skip it

/-- iptc-parser.ts `decodeUtf8` as a string. -/
def decodeUtf8 (bytes : List Nat) : String := codesToString (decodeUtf8Codes bytes)

/-- The character class JS `String.prototype.trim` strips: ASCII whitespace
plus NBSP, ZWNBSP and the Unicode line/paragraph separators (exotic Unicode
space separators are omitted; no claim exercises them). -/
def jsIsTrimWhite (c : Char) : Bool :=
  c.toNat = 32 ∨ c.toNat = 9 ∨ c.toNat = 10 ∨ c.toNat = 13 ∨ c.toNat = 11
  ∨ c.toNat = 12 ∨ c.toNat = 160 ∨ c.toNat = 65279 ∨ c.toNat = 8232 ∨ c.toNat = 8233

/-- JS `String.prototype.trim` on the character list. -/
def jsTrim (s : String) : String :=
  String.mk (((s.data.dropWhile jsIsTrimWhite).reverse.dropWhile jsIsTrimWhite).reverse)

/-- `.replace(/\0/g, '').trim()` applied to every decoded IPTC value
(iptc-parser.ts lines 194–196 and 288–290). -/
def cleanValue (s : String) : String :=
  jsTrim (String.mk (s.data.filter (fun c => c ≠ Char.ofNat 0)))

/-- The decoded, cleaned text of a record's data bytes. -/
def iptcRecordValue (seg : List Nat) (dataStart size : Nat) : String :=
  cleanValue (decodeUtf8 (natSlice seg dataStart (dataStart + size)))

/-- The record-number switch shared verbatim by both scan passes
(iptc-parser.ts lines 199–249 and 312–362), including the enclosing
`if (value)` guard: an empty cleaned value changes nothing. -/
def applyIptcRecord (d : IptcData) (recordNumber : Nat) (value : String) : IptcData :=
  if value = "" then d
  else if recordNumber = 105 then { d with headline := some value }  -- Headline: always overwrites
  else if recordNumber = 5 then                                      -- ObjectName: fallback only
    (if strFalsy d.headline then { d with headline := some value } else d)
  else if recordNumber = 40 then
    (if strFalsy d.instructions then { d with instructions := some value } else d)
  else if recordNumber = 55 then
    (if strFalsy d.dateCreated then { d with dateCreated := some value } else d)
  else if recordNumber = 60 then
    (if strFalsy d.timeCreated then { d with timeCreated := some value } else d)
  else if recordNumber = 80 then
    (if strFalsy d.byline then { d with byline := some value } else d)
  else if recordNumber = 116 then
    (if strFalsy d.contact then { d with contact := some value } else d)
  else if recordNumber = 92 then
    (if strFalsy d.subLocation then { d with subLocation := some value } else d)
  else if recordNumber = 110 then
    (if strFalsy d.credit then { d with credit := some value } else d)
  else if recordNumber = 120 then
    (if strFalsy d.caption then { d with caption := some value } else d)
  else if recordNumber = 25 then                                     -- Keywords: de-duplicated append
    (if value ∈ d.keywords.getD [] then d
     else { d with keywords := some (d.keywords.getD [] ++ [value]) })
  else if recordNumber = 90 then
    (if strFalsy d.city then { d with city := some value } else d)
  else if recordNumber = 95 then
    (if strFalsy d.stateProvince then { d with stateProvince := some value } else d)
  else if recordNumber = 101 then
    (if strFalsy d.country then { d with country := some value } else d)
  else d

/-- The direct top-level IIM scan of iptc-parser.ts `parseIptc`
(lines 181–260).  Note: for a dataset-2 record the source assigns
`offset = dataStart + dataSize` whether or not the declared size passed the
validity test — an invalid size only skips the decode, not the jump. -/
def iptcDirectScan (seg : List Nat) : Nat → Nat → IptcData → IptcData
  | 0, _, d => d
  | fuel + 1, offset, d =>
    if offset + 6 ≤ seg.length then
      if byteAt seg offset = 0x1c then
        if byteAt seg (offset + 1) = 2 then
          iptcDirectScan seg fuel (offset + 5 + be16 seg (offset + 3))
            (if 0 < be16 seg (offset + 3) ∧ be16 seg (offset + 3) < 65536
                ∧ offset + 5 + be16 seg (offset + 3) ≤ seg.length
             then applyIptcRecord d (byteAt seg (offset + 2))
                    (iptcRecordValue seg (offset + 5) (be16 seg (offset + 3)))
             else d)
        else iptcDirectScan seg fuel (offset + 1) d
      else iptcDirectScan seg fuel (offset + 1) d
    else d

/-- The scan loop of iptc-parser.ts `parseIptcDataBlock` (lines 273–379).
Here — unlike the direct scan above — an invalid declared size advances the
offset by exactly one byte. -/
def iptcBlockScan (blk : List Nat) : Nat → Nat → IptcData → IptcData
  | 0, _, d => d
  | fuel + 1, offset, d =>
    if offset + 6 ≤ blk.length then
      if byteAt blk offset = 0x1c then
        if byteAt blk (offset + 1) = 2 then
          if offset + 5 > blk.length then d
          else if 0 < be16 blk (offset + 3) ∧ be16 blk (offset + 3) < 65536
                  ∧ offset + 5 + be16 blk (offset + 3) ≤ blk.length then
            iptcBlockScan blk fuel (offset + 5 + be16 blk (offset + 3))
              (applyIptcRecord d (byteAt blk (offset + 2))
                (iptcRecordValue blk (offset + 5) (be16 blk (offset + 3))))
          else iptcBlockScan blk fuel (offset + 1) d
        else iptcBlockScan blk fuel (offset + 1) d
      else iptcBlockScan blk fuel (offset + 1) d
    else d

/-- iptc-parser.ts `parseIptcDataBlock` (lines 269–382). -/
def parseIptcDataBlock (blk : List Nat) (d : IptcData) : IptcData :=
  iptcBlockScan blk blk.length 0 d

/-- The data-size read and nested scan once the name field was skipped to
`dataOffset` (iptc-parser.ts lines 141–174). -/
def iptc8bimProcessAt (seg : List Nat) (dataOffset : Nat) (d : IptcData) : IptcData :=
  if dataOffset + 4 ≤ seg.length then
    if (dataOffset + 4 : Int) + jsInt32BE seg dataOffset ≤ (seg.length : Int) then
      parseIptcDataBlock
        (jsSubarray seg (dataOffset + 4) ((dataOffset + 4 : Int) + jsInt32BE seg dataOffset)) d
    else d
  else d

/-- Processing of one matched 8BIM/0x0404 resource block starting at `i`
(iptc-parser.ts lines 126–174): skip the even-padded Pascal name field, then
read the data size and run the nested IIM scan. -/
def iptc8bimProcess (seg : List Nat) (i : Nat) (d : IptcData) : IptcData :=
  iptc8bimProcessAt seg
    (if i + 6 < seg.length then
      (if 0 < byteAt seg (i + 6) then
        (if byteAt seg (i + 6) % 2 = 0
         then i + 6 + 1 + byteAt seg (i + 6) + 1
         else i + 6 + 1 + byteAt seg (i + 6))
       else i + 6 + 2)
     else i + 6) d

/-- The 8BIM resource-block pass of iptc-parser.ts `parseIptc` (lines 114–178):
a byte-by-byte scan for `'8BIM'` with resource ID `0x0404`; each hit skips the
even-padded Pascal name, reads a 4-byte big-endian (JS-signed) data size, and
when the block fits, feeds it to `parseIptcDataBlock`.  The `for` loop always
advances `i` by one, even across a matched block. -/
def iptc8bimScan (seg : List Nat) : Nat → Nat → IptcData → IptcData
  | 0, _, d => d
  | fuel + 1, i, d =>
    if i + 9 ≤ seg.length then
      iptc8bimScan seg fuel (i + 1)
        (if byteAt seg i = 0x38 ∧ byteAt seg (i + 1) = 0x42
            ∧ byteAt seg (i + 2) = 0x49 ∧ byteAt seg (i + 3) = 0x4d then
          if i + 6 ≤ seg.length then
            if be16 seg (i + 4) = 0x0404 then
              iptc8bimProcess seg i d
            else d
          else d
        else d)
    else d

def photoshopCodes : List Nat :=  -- 'Photoshop 3.0'
  [80, 104, 111, 116, 111, 115, 104, 111, 112, 32, 51, 46, 48]

/-- iptc-parser.ts `parseIptc` (lines 92–266): buffers shorter than 14 bytes
return the empty map; an optional `'Photoshop 3.0'` header offsets both passes;
the 8BIM resource-block pass runs first, then the direct IIM scan runs
unconditionally over the same buffer. -/
def parseIptc (seg : List Nat) : IptcData :=
  if seg.length < 14 then {}
  else if photoshopCodes.isPrefixOf (natSlice seg 0 14) then
    iptcDirectScan seg seg.length 14 (iptc8bimScan seg seg.length 14 {})
  else
    iptcDirectScan seg seg.length 0 (iptc8bimScan seg seg.length 0 {})

/-! ## XMP extraction (code.ts `parseXmpBasic`, lines 505–624) -/

/-- The `xmlBytes` slice that code.ts `parseXmpBasic` hands to its
field-extraction regexes: the document is located by the `<?xm` scan
(`xmpFindStart`) and ended at the first NUL (`xmpFindEnd`) — but only when
`xmlStart > 0` (line 518), so a document starting at offset 0 (and a missing
document, which leaves `xmlStart = 0` too) yields `none` and no fields are
extracted.  The regex field extraction itself operates on the UTF-8 decoding of
exactly these bytes and is not modelled further. -/
def parseXmpBasicXmlBytes (seg : List Nat) : Option (List Nat) :=
  if 0 < xmpFindStart seg seg.length 0 then
    some (natSlice seg (xmpFindStart seg seg.length 0)
      (xmpFindEnd seg seg.length (xmpFindStart seg seg.length 0)))
  else none

/-! ## Concrete inputs used by counterexamples and witnesses -/

/-- C1 counterexample `original`: a JPEG whose single APP1 metadata segment
carries the byte pair `FF DA` inside its payload. -/
def jpegCexOriginal : List Nat := [0xff, 0xd8, 0xff, 0xe1, 0x00, 0x04, 0xff, 0xda]

/-- C1 counterexample `rendered`: SOI, SOS, two scan bytes, EOI. -/
def jpegCexRendered : List Nat := [0xff, 0xd8, 0xff, 0xda, 0x11, 0x22, 0xff, 0xd9]

/-- A 29-byte XMP segment payload: `'<?xpacket'` followed by twenty `'x'`s. -/
def xmpPayload29 : List Nat := xpacketCodes ++ List.replicate 20 120

/-- C2 counterexample `original`: a JPEG carrying an EXIF APP1 segment (two
TIFF bytes `II`) and an XMP APP1 segment (`xmpPayload29`). -/
def pngCexOriginal : List Nat :=
  [0xff, 0xd8]
  ++ [0xff, 0xe1, 0x00, 0x0a, 69, 120, 105, 102, 0, 0, 0x49, 0x49]
  ++ [0xff, 0xe1, 0x00, 0x1f] ++ xmpPayload29
  ++ [0xff, 0xd9]

/-- C2 counterexample `rendered`: a minimal PNG with IHDR, IDAT and IEND
chunks (the parser does not validate CRCs, so arbitrary CRC bytes suffice). -/
def pngCexRendered : List Nat :=
  pngSignature
  ++ [0, 0, 0, 13] ++ ihdrCodes ++ List.replicate 13 0 ++ [1, 2, 3, 4]
  ++ [0, 0, 0, 1] ++ idatCodes ++ [0] ++ [5, 6, 7, 8]
  ++ [0, 0, 0, 0] ++ iendCodes ++ [9, 10, 11, 12]

/-- C7 buffer: `'Exif\0\0'`, a little-endian TIFF header, and one IFD entry
`{tag 0x010F, type ASCII, count 6}` whose value bytes `'Canon\0'` sit at
TIFF-relative offset 26. -/
def exifCanonBuf : List Nat :=
  [69, 120, 105, 102, 0, 0,
   73, 73,
   42, 0,
   8, 0, 0, 0,
   1, 0,
   0x0f, 0x01, 2, 0, 6, 0, 0, 0, 26, 0, 0, 0,
   0, 0, 0, 0,
   67, 97, 110, 111, 110, 0]

/-- C5 counterexample buffer: at offset 0 a dataset-2 record whose declared
size `0xFFFF` overruns the 14-byte buffer; at offset 5 a valid dataset-2
Headline record with data `'Hi'`; two trailing zero bytes. -/
def iptcCexBuf : List Nat := [0x1c, 2, 105, 0xff, 0xff, 0x1c, 2, 105, 0, 2, 72, 105, 0, 0]

/-- The bare 10-byte IIM Headline record `{0x1C, 2, 105, size 5, 'Hello'}`. -/
def iptcHelloRecord : List Nat := [0x1c, 2, 105, 0, 5, 72, 101, 108, 108, 111]

/-- C8 counterexample segment: `'<?xml?>'` — the `<?xm` sequence at offset 0. -/
def xmpCexSeg : List Nat := [60, 63, 120, 109, 108, 63, 62]

/-- C8 witness segment: a NUL, `'<?xml'`, then a NUL and one more byte. -/
def xmpWitnessSeg : List Nat := [0, 60, 63, 120, 109, 108, 0, 65]

/-! ## Helper lemmas -/

/-- `jsSubarray` at nonnegative `Nat`-cast indices is `natSlice`. -/
theorem jsSubarray_ofNat (l : List Nat) (a b : Nat) :
    jsSubarray l (a : Int) (b : Int) = natSlice l a b := by
  unfold jsSubarray natSlice jsResolveIdx
  have ha : ¬ ((a : Int) < 0) := by omega
  have hb : ¬ ((b : Int) < 0) := by omega
  rw [if_neg ha, if_neg hb]
  simp only [Int.toNat_ofNat]
  have h1 : l.take (min b l.length) = l.take b := by
    rcases Nat.le_total b l.length with h | h
    · rw [Nat.min_eq_left h]
    · rw [Nat.min_eq_right h, List.take_length, List.take_of_length_le h]
  rw [h1]
  rcases Nat.le_total a l.length with h | h
  · rw [Nat.min_eq_left h]
  · rw [Nat.min_eq_right h]
    have h2 : (l.take b).length ≤ l.length := by
      rw [List.length_take]; omega
    rw [List.drop_of_length_le h2, List.drop_of_length_le (le_trans h2 h)]

/-- A nonzero byte read implies the index is in range. -/
theorem byteAt_lt_length {l : List Nat} {i : Nat} (h : byteAt l i ≠ 0) : i < l.length := by
  by_contra hc
  push_neg at hc
  exact h (by unfold byteAt; exact List.getD_eq_default _ _ hc)

theorem natSlice_zero (l : List Nat) (b : Nat) : natSlice l 0 b = l.take b := by
  unfold natSlice; rw [List.drop_zero]

/-- Flattening a chunk list of the shape `[head] ++ mid ++ [tail]`. -/
theorem concatUint8_shape (a t : List Nat) (mid : List (List Nat)) :
    concatUint8 ([a] ++ mid ++ [t]) = a ++ (mid.flatten ++ t) := by
  simp [concatUint8, List.flatten_append]

/-! ## C1 — JPEG merge: SOI and scan-data tail -/

/-- C1 (counterexample): the claim says the output of `mergeJpegMetadata`
has, from **its own** SOS marker to the end, exactly the scan-data tail of
`rendered`.  With `jpegCexOriginal` — an arbitrary byte buffer under the
claim's quantification, whose kept APP1 metadata segment contains the byte
pair `FF DA` — the merged output's first `FF DA` pair lies inside that copied
header segment, so the output's tail from its SOS marker is strictly longer
than `rendered`'s.  Both inputs start with `FF D8` and `rendered` contains an
SOS marker, as the claim requires. -/
theorem mergeJpeg_sos_tail_cex :
    mergeJpegMetadata jpegCexOriginal jpegCexRendered
      = some [0xff, 0xd8, 0xff, 0xe1, 0x00, 0x04, 0xff, 0xda,
              0xff, 0xda, 0x11, 0x22, 0xff, 0xd9]
    ∧ ([0xff, 0xd8, 0xff, 0xe1, 0x00, 0x04, 0xff, 0xda,
        0xff, 0xda, 0x11, 0x22, 0xff, 0xd9] : List Nat).drop
        (jpegSosIndex [0xff, 0xd8, 0xff, 0xe1, 0x00, 0x04, 0xff, 0xda,
          0xff, 0xda, 0x11, 0x22, 0xff, 0xd9])
      ≠ jpegCexRendered.drop (jpegSosIndex jpegCexRendered) := by decide

/-- C1 (amended): for all `original` and `rendered` beginning with the SOI
marker `FF D8`, `mergeJpegMetadata` succeeds, its output starts with the same
2-byte SOI as `rendered`, and the scan-data tail of `rendered` (from the first
`FF DA` pair the source's scan finds) is appended to the output verbatim as its
final bytes.  (The stronger claim — that the output's tail from its own first
SOS marker equals `rendered`'s tail — fails when an emitted header segment
contains an embedded `FF DA` pair; see the counterexample.) -/
theorem mergeJpeg_soi_and_tail_amended (original rendered : List Nat)
    (ho : byteAt original 0 = 0xff ∧ byteAt original 1 = 0xd8)
    (hr : byteAt rendered 0 = 0xff ∧ byteAt rendered 1 = 0xd8) :
    ∃ out, mergeJpegMetadata original rendered = some out
      ∧ out.take 2 = rendered.take 2
      ∧ ∃ p, out = p ++ rendered.drop (jpegSosIndex rendered) := by
  have hlen : 1 < rendered.length := by
    have : byteAt rendered 1 ≠ 0 := by rw [hr.2]; omega
    exact byteAt_lt_length this
  have hshape : concatUint8 (mergeJpegChunkList original rendered)
      = rendered.take 2
        ++ ((mergeJpegMiddle original rendered).flatten
            ++ rendered.drop (jpegSosIndex rendered)) := by
    rw [show mergeJpegChunkList original rendered
        = [natSlice rendered 0 2] ++ mergeJpegMiddle original rendered
          ++ [rendered.drop (jpegSosIndex rendered)] from rfl]
    rw [concatUint8_shape, natSlice_zero]
  refine ⟨concatUint8 (mergeJpegChunkList original rendered), ?_, ?_, ?_⟩
  · unfold mergeJpegMetadata
    rw [if_pos ho, if_pos hr]
  · rw [hshape]
    have h2 : (rendered.take 2).length = 2 := by
      rw [List.length_take]; omega
    rw [List.take_append_eq_append_take, h2]
    simp
  · refine ⟨rendered.take 2 ++ (mergeJpegMiddle original rendered).flatten, ?_⟩
    rw [hshape, List.append_assoc]

/-- Witness for `mergeJpeg_soi_and_tail_amended` at a concrete input. -/
theorem mergeJpeg_soi_and_tail_amended_w :
    ∃ out, mergeJpegMetadata [0xff, 0xd8] [0xff, 0xd8] = some out
      ∧ out.take 2 = ([0xff, 0xd8] : List Nat).take 2
      ∧ ∃ p, out = p ++ ([0xff, 0xd8] : List Nat).drop (jpegSosIndex [0xff, 0xd8]) :=
  mergeJpeg_soi_and_tail_amended [0xff, 0xd8] [0xff, 0xd8]
    (by decide) (by decide)

/-! ## C2 — PNG merge error handling -/

/-- C2 (counterexample): the claim says that whenever **any** internal step —
including chunk encoding — fails, `mergePngMetadata` returns `rendered`
unchanged.  With `pngCexOriginal`, XMP extraction succeeds, the iTXt chunk
encoding then fails (the `itxtData` buffer is allocated one byte too small for
the five separator bytes plus the payload, so `itxtData.set` throws a
RangeError), yet the function returns a rebuilt buffer with an `eXIf` chunk
inserted — not `rendered`. -/
theorem mergePng_itxt_failure_cex :
    extractXmpForPng pngCexOriginal = some xmpPayload29
    ∧ itxtDataForXmp xmpPayload29 = none
    ∧ mergePngMetadata pngCexOriginal pngCexRendered ≠ pngCexRendered := by decide

/-- C2 (amended): `mergePngMetadata` never raises: for every pair of inputs it
either returns `rendered` unchanged, or its `try`-block pipeline
(`mergePngMetadataInner`) succeeded and the function returns that pipeline's
output.  Failures of the per-chunk encoding steps are swallowed inside the
pipeline (the failed chunk is skipped); only a failure that escapes to the
outer handler — chunk parsing — forces the `rendered`-unchanged fallback. -/
theorem mergePng_never_raises_amended (original rendered : List Nat) :
    mergePngMetadata original rendered = rendered
    ∨ mergePngMetadataInner original rendered
        = some (mergePngMetadata original rendered) := by
  cases h : mergePngMetadataInner original rendered with
  | none => left; unfold mergePngMetadata; rw [h]; rfl
  | some v => right; unfold mergePngMetadata; rw [h]; rfl

/-! ## C7 — EXIF decoder on the little-endian Make entry -/

/-- C7: `parseExif` on `'Exif\0\0'` + little-endian TIFF header + one IFD entry
`{tag 0x010F, type ASCII, count 6, value 'Canon\0'}` yields a field map whose
`make` field is the string `"Canon"` (trailing NUL excluded) and nothing else. -/
theorem parseExif_make_canon :
    parseExif exifCanonBuf = { make := some (.vStr "Canon") } := by decide

/-! ## C9 — determinism of both merge engines -/

/-- C9: both merge engines are deterministic — byte-identical inputs give
byte-identical outputs.  The embedded `mergeJpegMetadata` and
`mergePngMetadata` are pure functions of the two byte buffers alone, mirroring
the absence of randomness and clock reads in the source. -/
theorem merge_deterministic (o r o2 r2 : List Nat) (ho : o = o2) (hr : r = r2) :
    mergeJpegMetadata o r = mergeJpegMetadata o2 r2
    ∧ mergePngMetadata o r = mergePngMetadata o2 r2 := by
  subst ho; subst hr; exact ⟨rfl, rfl⟩

/-- Witness for `merge_deterministic` at a concrete input. -/
theorem merge_deterministic_w :
    mergeJpegMetadata [0xff, 0xd8] [0xff, 0xd8] = mergeJpegMetadata [0xff, 0xd8] [0xff, 0xd8]
    ∧ mergePngMetadata [0xff, 0xd8] [0xff, 0xd8] = mergePngMetadata [0xff, 0xd8] [0xff, 0xd8] :=
  merge_deterministic [0xff, 0xd8] [0xff, 0xd8] [0xff, 0xd8] [0xff, 0xd8] rfl rfl

/-! ## C10 — PNG merge frame effect without extractable metadata -/

/-- C10: when no EXIF, ICC or XMP payload can be extracted from `original`
(for example when `original` is not a JPEG), `mergePngMetadata` returns the
`rendered` buffer byte-identical, without reassembling the chunk stream. -/
theorem mergePng_frame_no_metadata (original rendered : List Nat)
    (hexif : extractExifForPng original = none)
    (hicc : extractIccForPng original = none)
    (hxmp : extractXmpForPng original = none) :
    mergePngMetadata original rendered = rendered := by
  unfold mergePngMetadata mergePngMetadataInner
  by_cases hs : pngSigOk rendered
  · rw [if_pos hs]
    simp [mergePngAssemble, hexif, hicc, hxmp]
  · rw [if_neg hs]; rfl

/-- Witness for `mergePng_frame_no_metadata` at a concrete input. -/
theorem mergePng_frame_no_metadata_w :
    mergePngMetadata [0, 1, 2] [9, 9] = [9, 9] :=
  mergePng_frame_no_metadata [0, 1, 2] [9, 9] (by decide) (by decide) (by decide)

/-! ## C3 — truncated-segment safety of the JPEG parsers -/

/-- The ui.ts parse loop returns as soon as its loop condition fails,
whatever fuel remains. -/
theorem parseJpegSegmentsLoop_stop (bytes : List Nat) (fuel i : Nat) (acc : List JpegSegment)
    (h : ¬ (i + 4 ≤ bytes.length)) :
    parseJpegSegmentsLoop bytes fuel i acc = acc.reverse := by
  cases fuel with
  | zero => rfl
  | succ n => simp only [parseJpegSegmentsLoop]; rw [if_neg h]

/-- C3 (counterexample): the claim says the segment whose declared end exceeds
the buffer is not included in the result.  `parseJpegSegments` (ui.ts) on
`FF D8 FF E1 00 10` — a final APP1 segment declaring end 20 in a 6-byte
buffer — returns that overrunning segment (with its data clamped to the
buffer), not the empty list the claim requires. -/
theorem parseJpegSegments_overrun_cex :
    parseJpegSegments [0xff, 0xd8, 0xff, 0xe1, 0x00, 0x10]
      = some [⟨0xe1, 16, 2, 20, [0xff, 0xe1, 0x00, 0x10]⟩] := by decide

/-- C3 (amended): at a marker whose declared end exceeds the buffer, the two
JPEG scanners halt without an exception but differ on inclusion:
code.ts `extractAllAppSegments` stops and returns only the segments collected
so far, excluding the overrunning one, while ui.ts `parseJpegSegments` appends
the overrunning segment — its data clamped at the buffer end — and then stops. -/
theorem jpeg_overrun_halt_amended (bytes : List Nat) (m fuel i : Nat)
    (accE : List (List Nat)) (accP : List JpegSegment)
    (h4 : i + 4 ≤ bytes.length)
    (hff : byteAt bytes i = 0xff)
    (hda : byteAt bytes (i + 1) ≠ 0xda)
    (hd9 : byteAt bytes (i + 1) ≠ 0xd9)
    (hns : ¬ isStandaloneMarker (byteAt bytes (i + 1)))
    (hover : bytes.length < i + 2 + be16 bytes (i + 2)) :
    extractAllAppSegmentsLoop bytes m (fuel + 1) i accE = accE.reverse
    ∧ parseJpegSegmentsLoop bytes (fuel + 1) i accP
        = (⟨byteAt bytes (i + 1), be16 bytes (i + 2), i, i + 2 + be16 bytes (i + 2),
            natSlice bytes i (i + 2 + be16 bytes (i + 2))⟩ :: accP).reverse := by
  constructor
  · simp only [extractAllAppSegmentsLoop]
    rw [if_pos h4, if_neg (not_not_intro hff), if_neg (not_or.mpr ⟨hda, hd9⟩),
        if_neg hns, if_neg (by omega), if_pos (by omega)]
  · simp only [parseJpegSegmentsLoop]
    rw [if_pos h4, if_neg (not_not_intro hff), if_neg hda, if_neg hd9, if_neg hns,
        if_neg (by omega)]
    exact parseJpegSegmentsLoop_stop _ _ _ _ (by omega)

/-- Witness for `jpeg_overrun_halt_amended` at the counterexample input. -/
theorem jpeg_overrun_halt_amended_w :
    extractAllAppSegmentsLoop [0xff, 0xd8, 0xff, 0xe1, 0x00, 0x10] 0xe1 (3 + 1) 2 []
      = ([] : List (List Nat)).reverse
    ∧ parseJpegSegmentsLoop [0xff, 0xd8, 0xff, 0xe1, 0x00, 0x10] (3 + 1) 2 []
        = ([⟨byteAt [0xff, 0xd8, 0xff, 0xe1, 0x00, 0x10] (2 + 1),
             be16 [0xff, 0xd8, 0xff, 0xe1, 0x00, 0x10] (2 + 2), 2,
             2 + 2 + be16 [0xff, 0xd8, 0xff, 0xe1, 0x00, 0x10] (2 + 2),
             natSlice [0xff, 0xd8, 0xff, 0xe1, 0x00, 0x10] 2
               (2 + 2 + be16 [0xff, 0xd8, 0xff, 0xe1, 0x00, 0x10] (2 + 2))⟩] :
           List JpegSegment).reverse :=
  jpeg_overrun_halt_amended [0xff, 0xd8, 0xff, 0xe1, 0x00, 0x10] 0xe1 3 2 [] []
    (by decide) (by decide) (by decide) (by decide) (by decide) (by decide)

/-! ## C5 — IPTC invalid-size advancement -/

/-- C5 (counterexample): the claim says **both** scan passes advance by one
byte past a dataset-2 record with an invalid declared size.  On `iptcCexBuf`
(an overrunning record at offset 0, a valid Headline record `'Hi'` at
offset 5), the 8BIM-block pass (`parseIptcDataBlock`) does advance one byte and
finds the Headline, but the direct top-level pass of `parseIptc` jumps by
`5 + declared size` past the valid record and finds nothing. -/
theorem iptc_invalid_size_advance_cex :
    (parseIptc iptcCexBuf).headline = none
    ∧ (parseIptcDataBlock iptcCexBuf {}).headline = some "Hi" := by decide

/-- C5 (amended): at a record with marker `0x1C`, dataset 2 and an invalid
declared size (zero, ≥ 65536, or extending past the buffer), the 8BIM
resource-block pass advances the scan by exactly one byte, but the direct
top-level IIM scan advances by `5 + declared size`, trusting the bad length
for the jump even though it skips the decode. -/
theorem iptc_invalid_size_step_amended (seg : List Nat) (fuel offset : Nat) (d : IptcData)
    (hin : offset + 6 ≤ seg.length)
    (hmk : byteAt seg offset = 0x1c)
    (hds : byteAt seg (offset + 1) = 2)
    (hbad : ¬ (0 < be16 seg (offset + 3) ∧ be16 seg (offset + 3) < 65536
              ∧ offset + 5 + be16 seg (offset + 3) ≤ seg.length)) :
    iptcDirectScan seg (fuel + 1) offset d
      = iptcDirectScan seg fuel (offset + 5 + be16 seg (offset + 3)) d
    ∧ iptcBlockScan seg (fuel + 1) offset d = iptcBlockScan seg fuel (offset + 1) d := by
  constructor
  · simp only [iptcDirectScan]
    rw [if_pos hin, if_pos hmk, if_pos hds, if_neg hbad]
  · simp only [iptcBlockScan]
    rw [if_pos hin, if_pos hmk, if_pos hds, if_neg (by omega), if_neg hbad]

/-- Witness for `iptc_invalid_size_step_amended` at the counterexample input. -/
theorem iptc_invalid_size_step_amended_w :
    iptcDirectScan iptcCexBuf (13 + 1) 0 {}
      = iptcDirectScan iptcCexBuf 13 (0 + 5 + be16 iptcCexBuf (0 + 3)) {}
    ∧ iptcBlockScan iptcCexBuf (13 + 1) 0 {} = iptcBlockScan iptcCexBuf 13 (0 + 1) {} :=
  iptc_invalid_size_step_amended iptcCexBuf 13 0 {}
    (by decide) (by decide) (by decide) (by decide)

/-! ## C6 — IPTC Headline semantics -/

/-- C6 (counterexample): the byte buffer containing exactly the one IIM record
`{0x1C, 2, 105, size 5, 'Hello'}` is 10 bytes long, and `parseIptc` returns the
empty map for every buffer shorter than 14 bytes — the headline is absent, not
`"Hello"`. -/
theorem iptc_headline_short_buffer_cex :
    (parseIptc iptcHelloRecord).headline = none := by decide

/-- C6 (amended): `parseIptc` returns the empty map for buffers shorter than
14 bytes; on the same single record padded with four zero bytes to 14 bytes it
returns headline `"Hello"`.  The update rule holds as claimed: a record-5
ObjectName never overrides a nonempty headline already set, while a record-105
Headline always overwrites. -/
theorem iptc_headline_amended :
    (parseIptc (iptcHelloRecord ++ [0, 0, 0, 0])).headline = some "Hello"
    ∧ (∀ (d : IptcData) (h v : String), d.headline = some h → h ≠ "" →
        (applyIptcRecord d 5 v).headline = some h)
    ∧ (∀ (d : IptcData) (v : String), v ≠ "" →
        (applyIptcRecord d 105 v).headline = some v) := by
  refine ⟨by decide, ?_, ?_⟩
  · intro d h v hd hne
    by_cases hv : v = ""
    · unfold applyIptcRecord; rw [if_pos hv]; exact hd
    · simp [applyIptcRecord, hv, hd, strFalsy, hne]
  · intro d v hv
    simp [applyIptcRecord, hv]

/-- Witness for `iptc_headline_amended` at concrete inputs. -/
theorem iptc_headline_amended_w :
    (parseIptc (iptcHelloRecord ++ [0, 0, 0, 0])).headline = some "Hello"
    ∧ (applyIptcRecord { headline := some "A" } 5 "B").headline = some "A"
    ∧ (applyIptcRecord { headline := some "A" } 105 "B").headline = some "B" :=
  ⟨iptc_headline_amended.1,
   iptc_headline_amended.2.1 { headline := some "A" } "A" "B" rfl (by decide),
   iptc_headline_amended.2.2 { headline := some "A" } "B" (by decide)⟩

/-! ## C8 — XMP document location -/

/-- `xmpFindStart` scanning from `j0` returns the first matching offset `j`,
provided `j` is within the fuel and its `<?xm` match fits the scan bound. -/
theorem xmpFindStart_finds (seg : List Nat) (j : Nat)
    (hjlt : j + 5 ≤ seg.length)
    (hmatch : byteAt seg j = 0x3c ∧ byteAt seg (j + 1) = 0x3f
      ∧ byteAt seg (j + 2) = 0x78 ∧ byteAt seg (j + 3) = 0x6d) :
    ∀ (fuel j0 : Nat), j0 ≤ j → j < j0 + fuel →
      (∀ k, j0 ≤ k → k < j →
        ¬ (byteAt seg k = 0x3c ∧ byteAt seg (k + 1) = 0x3f
           ∧ byteAt seg (k + 2) = 0x78 ∧ byteAt seg (k + 3) = 0x6d)) →
      xmpFindStart seg fuel j0 = j := by
  intro fuel
  induction fuel with
  | zero => intro j0 _ h2 _; omega
  | succ n ih =>
    intro j0 hge hfuel hfirst
    simp only [xmpFindStart]
    rcases Nat.eq_or_lt_of_le hge with heq | hlt
    · subst heq
      rw [if_pos hjlt, if_pos hmatch]
    · rw [if_pos (by omega), if_neg (hfirst j0 (le_refl _) hlt)]
      exact ih (j0 + 1) hlt (by omega) (fun k hk1 hk2 => hfirst k (by omega) hk2)

/-- `xmpFindEnd` scanning from `j0` either reaches the end with no NUL in
`[j0, length)`, or stops at the first NUL at or after `j0`. -/
theorem xmpFindEnd_spec (seg : List Nat) :
    ∀ (fuel j0 : Nat), seg.length ≤ j0 + fuel →
      (xmpFindEnd seg fuel j0 = seg.length
        ∧ ∀ k, j0 ≤ k → k < seg.length → byteAt seg k ≠ 0)
      ∨ (j0 ≤ xmpFindEnd seg fuel j0 ∧ xmpFindEnd seg fuel j0 < seg.length
        ∧ byteAt seg (xmpFindEnd seg fuel j0) = 0
        ∧ ∀ k, j0 ≤ k → k < xmpFindEnd seg fuel j0 → byteAt seg k ≠ 0) := by
  intro fuel
  induction fuel with
  | zero =>
    intro j0 hf
    left
    exact ⟨rfl, fun k hk1 hk2 => by omega⟩
  | succ n ih =>
    intro j0 hf
    simp only [xmpFindEnd]
    by_cases hj : j0 < seg.length
    · rw [if_pos hj]
      by_cases h0 : byteAt seg j0 = 0
      · rw [if_pos h0]
        right
        exact ⟨le_refl _, hj, h0, fun k hk1 hk2 => by omega⟩
      · rw [if_neg h0]
        rcases ih (j0 + 1) (by omega) with ⟨he, hall⟩ | ⟨hge, hlt, hz, hall⟩
        · left
          refine ⟨he, fun k hk1 hk2 => ?_⟩
          rcases Nat.eq_or_lt_of_le hk1 with heq | hlt2
          · exact heq ▸ h0
          · exact hall k hlt2 hk2
        · right
          refine ⟨by omega, hlt, hz, fun k hk1 hk2 => ?_⟩
          rcases Nat.eq_or_lt_of_le hk1 with heq | hlt2
          · exact heq ▸ h0
          · exact hall k hlt2 hk2
    · rw [if_neg hj]
      left
      exact ⟨rfl, fun k hk1 hk2 => by omega⟩

/-- C8 (counterexample): the claim says the extractor locates the embedded
document at the first `<?xm` occurrence *including offset 0*.  `xmpCexSeg`
(`'<?xml?>'`) carries the sequence at offset 0, yet code.ts `parseXmpBasic`
locates no document at all (its `xmlStart > 0` guard conflates a match at
offset 0 with no match) and extracts no fields. -/
theorem xmp_offset_zero_cex :
    xmpCexSeg.take 4 = [0x3c, 0x3f, 0x78, 0x6d]
    ∧ parseXmpBasicXmlBytes xmpCexSeg = none := by decide

/-- C8 (amended): `parseXmpBasic` locates the embedded document only when the
first `<?xm` occurrence sits at a *positive* offset `j` (with its match within
the scan bound `length - 4`): the document then runs from `j` to the first NUL
byte at or after `j` — or to the end of the segment if no NUL exists — and the
field extraction decodes exactly those bytes.  An occurrence at offset 0 is
treated as absent (see the counterexample). -/
theorem xmp_locate_amended (seg : List Nat) (j : Nat)
    (hj : 0 < j)
    (hjlt : j + 5 ≤ seg.length)
    (hmatch : byteAt seg j = 0x3c ∧ byteAt seg (j + 1) = 0x3f
      ∧ byteAt seg (j + 2) = 0x78 ∧ byteAt seg (j + 3) = 0x6d)
    (hfirst : ∀ k, k < j →
      ¬ (byteAt seg k = 0x3c ∧ byteAt seg (k + 1) = 0x3f
         ∧ byteAt seg (k + 2) = 0x78 ∧ byteAt seg (k + 3) = 0x6d)) :
    parseXmpBasicXmlBytes seg
      = some (natSlice seg j (xmpFindEnd seg seg.length j))
    ∧ ((xmpFindEnd seg seg.length j = seg.length
         ∧ ∀ k, j ≤ k → k < seg.length → byteAt seg k ≠ 0)
       ∨ (xmpFindEnd seg seg.length j < seg.length
         ∧ byteAt seg (xmpFindEnd seg seg.length j) = 0
         ∧ ∀ k, j ≤ k → k < xmpFindEnd seg seg.length j → byteAt seg k ≠ 0)) := by
  have hs : xmpFindStart seg seg.length 0 = j :=
    xmpFindStart_finds seg j hjlt hmatch seg.length 0 (by omega) (by omega)
      (fun k _ hk2 => hfirst k hk2)
  constructor
  · unfold parseXmpBasicXmlBytes
    rw [hs, if_pos hj]
  · rcases xmpFindEnd_spec seg seg.length j (by omega) with ⟨he, hall⟩ | ⟨_, hlt, hz, hall⟩
    · left; exact ⟨he, hall⟩
    · right; exact ⟨hlt, hz, hall⟩

/-- Witness for `xmp_locate_amended` at `xmpWitnessSeg` with the document at
offset 1. -/
theorem xmp_locate_amended_w :
    parseXmpBasicXmlBytes xmpWitnessSeg
      = some (natSlice xmpWitnessSeg 1 (xmpFindEnd xmpWitnessSeg xmpWitnessSeg.length 1))
    ∧ ((xmpFindEnd xmpWitnessSeg xmpWitnessSeg.length 1 = xmpWitnessSeg.length
         ∧ ∀ k, 1 ≤ k → k < xmpWitnessSeg.length → byteAt xmpWitnessSeg k ≠ 0)
       ∨ (xmpFindEnd xmpWitnessSeg xmpWitnessSeg.length 1 < xmpWitnessSeg.length
         ∧ byteAt xmpWitnessSeg (xmpFindEnd xmpWitnessSeg xmpWitnessSeg.length 1) = 0
         ∧ ∀ k, 1 ≤ k → k < xmpFindEnd xmpWitnessSeg xmpWitnessSeg.length 1 →
             byteAt xmpWitnessSeg k ≠ 0)) :=
  xmp_locate_amended xmpWitnessSeg 1 (by decide) (by decide) (by decide)
    (fun k hk => by
      have hk0 : k = 0 := by omega
      subst hk0; decide)

theorem xor_shiftRight (a b n : Nat) :
    (a ^^^ b) >>> n = (a >>> n) ^^^ (b >>> n) := by
  apply Nat.eq_of_testBit_eq
  intro i
  simp [Nat.testBit_shiftRight, Nat.testBit_xor]

theorem xor_div_two (a b : Nat) : (a ^^^ b) / 2 = (a / 2) ^^^ (b / 2) := by
  have h := xor_shiftRight a b 1
  simpa [Nat.shiftRight_succ, Nat.shiftRight_zero] using h

theorem nat_xor_left_comm (a b c : Nat) : a ^^^ (b ^^^ c) = b ^^^ (a ^^^ c) := by
  rw [← Nat.xor_assoc, Nat.xor_comm a b, Nat.xor_assoc]

theorem xor_mod_two (a b : Nat) : (a ^^^ b) % 2 = (a % 2 + b % 2) % 2 := by
  have h := Nat.testBit_xor a b 0
  rw [Nat.testBit_zero, Nat.testBit_zero, Nat.testBit_zero] at h
  rcases Nat.mod_two_eq_zero_or_one a with ha | ha <;>
    rcases Nat.mod_two_eq_zero_or_one b with hb | hb <;>
    rcases Nat.mod_two_eq_zero_or_one (a ^^^ b) with hx | hx <;>
    rw [ha, hb, hx] at h ⊢ <;> simp at h ⊢

theorem crcStep_xor (a b : Nat) :
    crcStep (a ^^^ b) = crcStep a ^^^ crcStep b := by
  unfold crcStep
  have hdiv := xor_div_two a b
  have hmod := xor_mod_two a b
  rcases Nat.mod_two_eq_zero_or_one a with ha | ha <;>
    rcases Nat.mod_two_eq_zero_or_one b with hb | hb <;> rw [ha, hb] at hmod
  · rw [if_neg (by omega), if_neg (by omega), if_neg (by omega), hdiv]
  · rw [if_pos (by omega), if_neg (by omega), if_pos (by omega), hdiv,
        nat_xor_left_comm]
  · rw [if_pos (by omega), if_pos (by omega), if_neg (by omega), hdiv,
        ← Nat.xor_assoc]
  · rw [if_neg (by omega), if_pos (by omega), if_pos (by omega), hdiv]
    conv_rhs => rw [Nat.xor_assoc, nat_xor_left_comm (a / 2), ← Nat.xor_assoc,
      Nat.xor_self, Nat.zero_xor]

theorem crcStepIter_xor (n a b : Nat) :
    crcStep^[n] (a ^^^ b) = crcStep^[n] a ^^^ crcStep^[n] b := by
  induction n generalizing a b with
  | zero => rfl
  | succ k ih => rw [Function.iterate_succ_apply, Function.iterate_succ_apply,
      Function.iterate_succ_apply, crcStep_xor, ih]

theorem crcStep_two_mul (y : Nat) : crcStep (2 * y) = y := by
  unfold crcStep
  rw [if_neg (by omega), Nat.mul_div_cancel_left y (by omega)]

theorem crcStepIter_pow (k y : Nat) : crcStep^[k] (2 ^ k * y) = y := by
  induction k generalizing y with
  | zero => simp
  | succ n ih =>
    rw [Function.iterate_succ_apply, pow_succ]
    have h : 2 ^ n * 2 * y = 2 * (2 ^ n * y) := by ring
    rw [h, crcStep_two_mul, ih]

theorem xor_low_high (x : Nat) : (x % 256) ^^^ (2 ^ 8 * (x / 2 ^ 8)) = x := by
  apply Nat.eq_of_testBit_eq
  intro i
  rw [Nat.testBit_xor]
  have hsh : 2 ^ 8 * (x / 2 ^ 8) = (x >>> 8) <<< 8 := by
    rw [Nat.shiftLeft_eq, Nat.shiftRight_eq_div_pow]; ring
  rw [hsh, show (256 : Nat) = 2 ^ 8 from by norm_num, Nat.testBit_mod_two_pow,
      Nat.testBit_shiftLeft, Nat.testBit_shiftRight]
  by_cases hi : i < 8
  · simp [hi, show ¬ (8 ≤ i) from by omega]
  · simp [hi, show 8 ≤ i from by omega, show 8 + (i - 8) = i from by omega]

theorem xor_byte_div (c b : Nat) (hb : b < 256) : (c ^^^ b) / 2 ^ 8 = c / 2 ^ 8 := by
  rw [← Nat.shiftRight_eq_div_pow, ← Nat.shiftRight_eq_div_pow, xor_shiftRight]
  have hb8 : b >>> 8 = 0 := by
    rw [Nat.shiftRight_eq_div_pow]
    omega
  rw [hb8, Nat.xor_zero]

theorem land_255_eq_mod (x : Nat) : x &&& 255 = x % 256 := by
  have h := Nat.and_pow_two_sub_one_eq_mod x 8
  norm_num at h
  exact h

theorem crcUpdate_eq_spec (c b : Nat) (hb : b < 256) :
    crcUpdate c b = crcStep^[8] (c ^^^ b) := by
  unfold crcUpdate crcTableEntry
  conv_rhs => rw [← xor_low_high (c ^^^ b)]
  rw [crcStepIter_xor, crcStepIter_pow, land_255_eq_mod, xor_byte_div c b hb]
  norm_num

theorem foldl_crcUpdate_spec (bs : List Nat) (hbs : ∀ b ∈ bs, b < 256) (c : Nat) :
    bs.foldl crcUpdate c = bs.foldl (fun c b => crcStep^[8] (c ^^^ b)) c := by
  induction bs generalizing c with
  | nil => rfl
  | cons x xs ih =>
    rw [List.foldl_cons, List.foldl_cons, crcUpdate_eq_spec c x (hbs x (by simp)),
        ih (fun b hb => hbs b (by simp [hb]))]

theorem crcStep_lt (c : Nat) (h : c < 4294967296) : crcStep c < 4294967296 := by
  unfold crcStep
  by_cases hp : c % 2 = 1
  · rw [if_pos hp]
    have := Nat.xor_lt_two_pow (x := 0xEDB88320) (y := c / 2) (n := 32) (by norm_num) (by omega)
    omega
  · rw [if_neg hp]; omega

theorem crcStepIter_lt (k c : Nat) (h : c < 4294967296) : crcStep^[k] c < 4294967296 := by
  induction k generalizing c with
  | zero => exact h
  | succ n ih => rw [Function.iterate_succ_apply]; exact ih _ (crcStep_lt c h)

theorem crcUpdate_lt (c b : Nat) (hc : c < 4294967296) : crcUpdate c b < 4294967296 := by
  unfold crcUpdate crcTableEntry
  have h1 : crcStep^[8] ((c ^^^ b) &&& 0xff) < 4294967296 := by
    apply crcStepIter_lt
    rw [land_255_eq_mod]
    omega
  have h2 : c / 256 < 4294967296 := by omega
  have := Nat.xor_lt_two_pow (n := 32) (by norm_num at h1 ⊢; exact h1) (by norm_num at h2 ⊢; exact h2)
  norm_num at this ⊢
  exact this

theorem foldl_crcUpdate_lt (bs : List Nat) (c : Nat) (hc : c < 4294967296) :
    bs.foldl crcUpdate c < 4294967296 := by
  induction bs generalizing c with
  | nil => exact hc
  | cons x xs ih => rw [List.foldl_cons]; exact ih _ (crcUpdate_lt c x hc)

theorem calculateCrc32_lt (t d : List Nat) : calculateCrc32 t d < 4294967296 := by
  unfold calculateCrc32
  omega

theorem calculateCrc32_eq_spec (t d : List Nat)
    (ht : ∀ b ∈ t, b < 256) (hd : ∀ b ∈ d, b < 256) :
    calculateCrc32 t d = crc32Spec (t ++ d) := by
  unfold calculateCrc32 crc32Spec
  have hfold : d.foldl crcUpdate (t.foldl crcUpdate 0xffffffff)
      = (t ++ d).foldl (fun c b => crcStep^[8] (c ^^^ b)) 0xffffffff := by
    rw [List.foldl_append, foldl_crcUpdate_spec t ht, foldl_crcUpdate_spec d hd]
  rw [hfold]
  apply Nat.mod_eq_of_lt
  have hb : (t ++ d).foldl (fun c b => crcStep^[8] (c ^^^ b)) 0xffffffff < 4294967296 := by
    rw [← hfold]
    exact foldl_crcUpdate_lt _ _ (foldl_crcUpdate_lt _ _ (by norm_num))
  have := Nat.xor_lt_two_pow (n := 32) (x := (t ++ d).foldl (fun c b => crcStep^[8] (c ^^^ b)) 0xffffffff)
    (y := 0xffffffff) (by norm_num at hb ⊢; exact hb) (by norm_num)
  norm_num at this ⊢
  exact this

theorem byteAtI_ofNat (l : List Nat) (n : Nat) : byteAtI l (n : Int) = byteAt l n := by
  unfold byteAtI byteAt
  rw [if_pos (by omega), Int.toNat_ofNat]

theorem byteAt_append_right (a b : List Nat) (k : Nat) :
    byteAt (a ++ b) (a.length + k) = byteAt b k := by
  unfold byteAt
  rw [List.getD_append_right a b _ _ (by omega)]
  congr 1
  omega

theorem byteAt_append_left (a b : List Nat) (k : Nat) (h : k < a.length) :
    byteAt (a ++ b) k = byteAt a k := by
  unfold byteAt
  rw [List.getD_append a b _ k h]

theorem toInt32_small (n : Nat) (h : n < 2147483648) : toInt32 n = (n : Int) := by
  unfold toInt32
  rw [Nat.mod_eq_of_lt (by omega), if_pos (by omega)]

theorem toInt32_emod (n : Nat) : toInt32 n % 4294967296 = ((n % 4294967296 : Nat) : Int) := by
  unfold toInt32
  split <;> omega

theorem parsePngChunksLoop_stop (bytes : List Nat) (fuel : Nat) (i : Int)
    (acc : List PngChunk) (h : ¬ (i + 12 ≤ (bytes.length : Int))) :
    parsePngChunksLoop bytes fuel i acc = acc.reverse := by
  cases fuel with
  | zero => rfl
  | succ n => simp only [parsePngChunksLoop]; rw [if_neg h]

theorem natSlice_middle (A B C : List Nat) :
    natSlice (A ++ B ++ C) A.length (A.length + B.length) = B := by
  unfold natSlice
  rw [List.append_assoc, List.take_append_eq_append_take,
      List.take_of_length_le (by omega),
      show A.length + B.length - A.length = B.length from by omega,
      List.take_append_of_le_length (le_refl _), List.take_length]
  exact List.drop_left A B

theorem jsSubarray_nonneg (l : List Nat) (a b : Int) (ha : 0 ≤ a) (hb : 0 ≤ b) :
    jsSubarray l a b = natSlice l a.toNat b.toNat := by
  have h := jsSubarray_ofNat l a.toNat b.toNat
  rw [Int.toNat_of_nonneg ha, Int.toNat_of_nonneg hb] at h
  exact h

theorem typeBytes_eq (t : List Nat) (h4 : t.length = 4) (ha : ∀ b ∈ t, b < 128) :
    (List.range 4).map (fun k => t.getD k 0 % 256) = t := by
  rcases t with _ | ⟨a, _ | ⟨b, _ | ⟨c, _ | ⟨e, _ | rest⟩⟩⟩⟩ <;> simp at h4
  have hae : a % 256 = a := Nat.mod_eq_of_lt (by have := ha a (by simp); omega)
  have hbe : b % 256 = b := Nat.mod_eq_of_lt (by have := ha b (by simp); omega)
  have hce : c % 256 = c := Nat.mod_eq_of_lt (by have := ha c (by simp); omega)
  have hee : e % 256 = e := Nat.mod_eq_of_lt (by have := ha e (by simp); omega)
  rw [show List.range 4 = [0, 1, 2, 3] from by decide]
  simp [hae, hbe, hce, hee]

/-- C4 counterexample: the literal claim applies parseChunks directly to the
output of encodeChunk, but parsePngChunks first validates the 8-byte PNG
signature and a bare chunk has no signature, so the parse throws
(embedded: returns none) instead of yielding a first chunk. -/
theorem png_roundtrip_no_signature_cex :
    parsePngChunks (createPngChunk [101, 88, 73, 102] [1, 2, 3]) = none := by
  rfl

/-- C4 (amended): for every 4-byte ASCII chunk type and every byte array of
length below 2^31, parsing the PNG signature followed by the output of
createPngChunk yields exactly one chunk whose type and data equal the inputs,
and whose CRC field, read back as an unsigned 32-bit value, equals the standard
PNG CRC32 (reflected polynomial 0xEDB88320, initial and final XOR 0xFFFFFFFF)
of type followed by data. -/
theorem png_chunk_roundtrip_amended (t d : List Nat)
    (ht4 : t.length = 4) (hta : ∀ b ∈ t, b < 128)
    (hdb : ∀ b ∈ d, b < 256) (hdl : d.length < 2147483648) :
    parsePngChunks (pngSignature ++ createPngChunk t d)
      = some [⟨(d.length : Int), t, d, toInt32 (calculateCrc32 t d), 8,
              8 + 8 + (d.length : Int) + 4⟩]
    ∧ toInt32 (calculateCrc32 t d) % 4294967296 = (crc32Spec (t ++ d) : Int) := by
  have htB := typeBytes_eq t ht4 hta
  have hcreate : createPngChunk t d
      = be4Bytes d.length ++ t ++ d ++ be4Bytes (calculateCrc32 t d) := by
    unfold createPngChunk
    rw [htB]
  have hclt := calculateCrc32_lt t d
  constructor
  · -- parse the single chunk
    have hblen : (pngSignature ++ createPngChunk t d).length = 20 + d.length := by
      rw [hcreate]
      simp [pngSignature, be4Bytes, ht4]
      omega
    -- the 12 leading bytes in cons form
    have hcons : pngSignature ++ createPngChunk t d
        = 0x89 :: 0x50 :: 0x4e :: 0x47 :: 0x0d :: 0x0a :: 0x1a :: 0x0a
          :: (d.length / 16777216 % 256) :: (d.length / 65536 % 256)
          :: (d.length / 256 % 256) :: (d.length % 256)
          :: ((t ++ d) ++ be4Bytes (calculateCrc32 t d)) := by
      rw [hcreate]
      simp [pngSignature, be4Bytes]
    have hsig : pngSigOk (pngSignature ++ createPngChunk t d) := by
      unfold pngSigOk
      rw [hcons]
      intro hcon
      rcases hcon with h | h | h | h | h | h | h | h | h
      · simp [List.length_cons] at h
        omega
      all_goals exact h rfl
    have hb8 : byteAt (pngSignature ++ createPngChunk t d) 8 = d.length / 16777216 % 256 := by
      rw [hcons]; rfl
    have hb9 : byteAt (pngSignature ++ createPngChunk t d) 9 = d.length / 65536 % 256 := by
      rw [hcons]; rfl
    have hb10 : byteAt (pngSignature ++ createPngChunk t d) 10 = d.length / 256 % 256 := by
      rw [hcons]; rfl
    have hb11 : byteAt (pngSignature ++ createPngChunk t d) 11 = d.length % 256 := by
      rw [hcons]; rfl
    have hlen32 : jsInt32BE (pngSignature ++ createPngChunk t d) 8 = (d.length : Int) := by
      unfold jsInt32BE
      rw [show ((8:Int) + 1) = ((9:Nat) : Int) from by norm_num,
          show ((8:Int) + 2) = ((10:Nat) : Int) from by norm_num,
          show ((8:Int) + 3) = ((11:Nat) : Int) from by norm_num,
          show (8:Int) = ((8:Nat) : Int) from by norm_num]
      rw [byteAtI_ofNat, byteAtI_ofNat, byteAtI_ofNat, byteAtI_ofNat]
      rw [hb8, hb9, hb10, hb11]
      rw [show 16777216 * (d.length / 16777216 % 256) + 65536 * (d.length / 65536 % 256)
          + 256 * (d.length / 256 % 256) + d.length % 256 = d.length from by omega]
      exact toInt32_small d.length (by omega)
    have hgc : pngSignature ++ createPngChunk t d
        = (pngSignature ++ be4Bytes d.length ++ t ++ d) ++ be4Bytes (calculateCrc32 t d) := by
      rw [hcreate]; simp [List.append_assoc]
    have hplen : (pngSignature ++ be4Bytes d.length ++ t ++ d).length = 16 + d.length := by
      simp [pngSignature, be4Bytes, ht4]
      omega
    have hcbyte : ∀ k : Nat, byteAt (pngSignature ++ createPngChunk t d) (16 + d.length + k)
        = byteAt (be4Bytes (calculateCrc32 t d)) k := by
      intro k
      rw [hgc]
      have h := byteAt_append_right (pngSignature ++ be4Bytes d.length ++ t ++ d)
        (be4Bytes (calculateCrc32 t d)) k
      rw [hplen] at h
      exact h
    have hcbyte0 : byteAt (pngSignature ++ createPngChunk t d) (16 + d.length)
        = byteAt (be4Bytes (calculateCrc32 t d)) 0 := by
      have h := hcbyte 0
      norm_num at h
      exact h
    have hcrcread : jsInt32BE (pngSignature ++ createPngChunk t d) (8 + 8 + (d.length : Int))
        = toInt32 (calculateCrc32 t d) := by
      unfold jsInt32BE
      rw [show ((8:Int) + 8 + (d.length : Int)) = ((16 + d.length : Nat) : Int) from by
            push_cast; ring]
      rw [show ((16 + d.length : Nat) : Int) + 1 = ((16 + d.length + 1 : Nat) : Int) from by
            push_cast; ring,
          show ((16 + d.length : Nat) : Int) + 2 = ((16 + d.length + 2 : Nat) : Int) from by
            push_cast; ring,
          show ((16 + d.length : Nat) : Int) + 3 = ((16 + d.length + 3 : Nat) : Int) from by
            push_cast; ring]
      rw [byteAtI_ofNat, byteAtI_ofNat, byteAtI_ofNat, byteAtI_ofNat]
      rw [hcbyte0, hcbyte 1, hcbyte 2, hcbyte 3]
      rw [show byteAt (be4Bytes (calculateCrc32 t d)) 0
            = calculateCrc32 t d / 16777216 % 256 from rfl,
          show byteAt (be4Bytes (calculateCrc32 t d)) 1
            = calculateCrc32 t d / 65536 % 256 from rfl,
          show byteAt (be4Bytes (calculateCrc32 t d)) 2
            = calculateCrc32 t d / 256 % 256 from rfl,
          show byteAt (be4Bytes (calculateCrc32 t d)) 3
            = calculateCrc32 t d % 256 from rfl]
      rw [show 16777216 * (calculateCrc32 t d / 16777216 % 256)
          + 65536 * (calculateCrc32 t d / 65536 % 256)
          + 256 * (calculateCrc32 t d / 256 % 256) + calculateCrc32 t d % 256
          = calculateCrc32 t d from by omega]
    have hg1 : pngSignature ++ createPngChunk t d
        = (pngSignature ++ be4Bytes d.length) ++ t ++ (d ++ be4Bytes (calculateCrc32 t d)) := by
      rw [hcreate]; simp [List.append_assoc]
    have htype : jsSubarray (pngSignature ++ createPngChunk t d) (8 + 4) (8 + 8) = t := by
      rw [show ((8:Int) + 4) = ((12:Nat) : Int) from by norm_num,
          show ((8:Int) + 8) = ((16:Nat) : Int) from by norm_num, jsSubarray_ofNat]
      have h := natSlice_middle (pngSignature ++ be4Bytes d.length) t
        (d ++ be4Bytes (calculateCrc32 t d))
      rw [show (pngSignature ++ be4Bytes d.length).length = 12 from by
            simp [pngSignature, be4Bytes], ht4] at h
      norm_num at h
      rw [hg1]
      exact h
    have hg2 : pngSignature ++ createPngChunk t d
        = (pngSignature ++ be4Bytes d.length ++ t) ++ d ++ be4Bytes (calculateCrc32 t d) := by
      rw [hcreate]; simp [List.append_assoc]
    have hdata : jsSubarray (pngSignature ++ createPngChunk t d)
        (8 + 8) (8 + 8 + (d.length : Int)) = d := by
      rw [show ((8:Int) + 8 + (d.length : Int)) = ((16 + d.length : Nat) : Int) from by
            push_cast; ring,
          show ((8:Int) + 8) = ((16:Nat) : Int) from by norm_num, jsSubarray_ofNat]
      have h := natSlice_middle (pngSignature ++ be4Bytes d.length ++ t) d
        (be4Bytes (calculateCrc32 t d))
      rw [show (pngSignature ++ be4Bytes d.length ++ t).length = 16 from by
            simp [pngSignature, be4Bytes, ht4]] at h
      rw [hg2]
      exact h
    unfold parsePngChunks
    rw [if_pos hsig, hblen, show (20 + d.length) = (19 + d.length) + 1 from by omega]
    simp only [parsePngChunksLoop]
    rw [hblen, hlen32]
    rw [if_pos (show (8:Int) + 12 ≤ ((20 + d.length : Nat) : Int) from by push_cast; omega)]
    rw [if_neg (show ¬ ((8:Int) + 8 + (d.length : Int) + 4 > ((20 + d.length : Nat) : Int))
          from by push_cast; omega)]
    rw [htype, hdata, hcrcread]
    by_cases hIend : t = iendCodes
    · rw [if_pos hIend, List.reverse_singleton]
    · rw [if_neg hIend]
      rw [parsePngChunksLoop_stop _ _ _ _
          (show ¬ ((8:Int) + 8 + (d.length : Int) + 4 + 12
              ≤ ((pngSignature ++ createPngChunk t d).length : Int))
            from by rw [hblen]; push_cast; omega)]
      rw [List.reverse_singleton]
  · rw [toInt32_emod, Nat.mod_eq_of_lt hclt, calculateCrc32_eq_spec t d (fun b hb => by have := hta b hb; omega) hdb]

theorem png_chunk_roundtrip_amended_w :
    parsePngChunks (pngSignature ++ createPngChunk [65, 66, 67, 68] [1, 2])
      = some [⟨(([1, 2] : List Nat).length : Int), [65, 66, 67, 68], [1, 2],
              toInt32 (calculateCrc32 [65, 66, 67, 68] [1, 2]), 8,
              8 + 8 + (([1, 2] : List Nat).length : Int) + 4⟩]
    ∧ toInt32 (calculateCrc32 [65, 66, 67, 68] [1, 2]) % 4294967296
      = (crc32Spec ([65, 66, 67, 68] ++ [1, 2]) : Int) :=
  png_chunk_roundtrip_amended [65, 66, 67, 68] [1, 2]
    (by decide) (by decide) (by decide) (by decide)
